import Mathlib

/-!
Verification of the hydrostatics / stability core of the TCC repository
(src/core/cc.py, src/core/ch.py, src/core/eed.py, src/utils/integration.py,
src/io/file_handler.py) against its natural-language specification.

The Python code computes with IEEE floats; the embedding models the
arithmetic with exact rationals.  Because Mathlib's `ℚ` does not reduce
inside the kernel (its normalisation runs `Nat.gcd`, a well-founded
recursion), the embedding computes on `Q`, an unnormalised fraction type
(integer numerator, positive integer denominator) whose operations are
plain integer arithmetic.  `Q.val` interprets a `Q` as a `ℚ`; every
operation commutes with `val`, so theorems are stated about `val` images.

Calls into SciPy (`brentq`, `fsolve`) and trigonometric functions are not
part of the repository; they enter the embedding as explicit oracle
parameters (functions supplied to the embedded definitions), with their
relevant contracts (for instance, that `brentq` returns a root) taken as
hypotheses where a theorem needs them.
-/

/-- Unnormalised rational numbers: numerator `n`, positive denominator `d`.
No gcd normalisation is performed, so all operations kernel-reduce. -/
structure Q where
  n : ℤ
  d : ℤ
  dpos : 0 < d

namespace Q

/-- Interpretation into `ℚ`. -/
def val (q : Q) : ℚ := (q.n : ℚ) / (q.d : ℚ)

def ofInt (n : ℤ) : Q := ⟨n, 1, by norm_num⟩

instance (n : ℕ) : OfNat Q n := ⟨ofInt n⟩

/-- Addition, with a fast path for equal denominators (keeps denominators
from exploding along long trapezoid sums). -/
def add (a b : Q) : Q :=
  if h : a.d = b.d then ⟨a.n + b.n, a.d, a.dpos⟩
  else ⟨a.n * b.d + b.n * a.d, a.d * b.d, mul_pos a.dpos b.dpos⟩

def neg (a : Q) : Q := ⟨-a.n, a.d, a.dpos⟩

def mul (a b : Q) : Q := ⟨a.n * b.n, a.d * b.d, mul_pos a.dpos b.dpos⟩

/-- Multiplicative inverse; `0` maps to `0` (matching `ℚ`, where division
by zero yields `0`; no reachable code path divides by zero). -/
def inv (a : Q) : Q :=
  if h : 0 < a.n then ⟨a.d, a.n, h⟩
  else if h2 : a.n < 0 then ⟨-a.d, -a.n, by omega⟩
  else ⟨0, 1, by norm_num⟩

instance : Add Q := ⟨add⟩
instance : Neg Q := ⟨neg⟩
instance : Mul Q := ⟨mul⟩

instance : Sub Q := ⟨fun a b => a + (-b)⟩

instance : Div Q := ⟨fun a b => a * inv b⟩

/-- Order on `Q` by cross multiplication (denominators are positive). -/
instance : LE Q := ⟨fun a b => a.n * b.d ≤ b.n * a.d⟩

instance : LT Q := ⟨fun a b => a.n * b.d < b.n * a.d⟩

instance (a b : Q) : Decidable (a ≤ b) := Int.decLe _ _

instance (a b : Q) : Decidable (a < b) := Int.decLt _ _

/-- Value equality test (structural equality is finer than value equality). -/
def beq (a b : Q) : Bool := a.n * b.d == b.n * a.d

def qabs (a : Q) : Q := ⟨|a.n|, a.d, a.dpos⟩

theorem val_dcast_pos (a : Q) : (0:ℚ) < (a.d : ℚ) := by
  exact_mod_cast a.dpos

theorem val_dcast_ne (a : Q) : ((a.d : ℚ)) ≠ 0 := ne_of_gt (val_dcast_pos a)

theorem val_ofNat (n : ℕ) : (OfNat.ofNat n : Q).val = (n : ℚ) := by
  simp [OfNat.ofNat, ofInt, val]
  norm_num

theorem val_zero : (0 : Q).val = 0 := by simpa using val_ofNat 0

theorem val_one : (1 : Q).val = 1 := by
  have := val_ofNat 1
  simpa using this

theorem val_add (a b : Q) : (a + b).val = a.val + b.val := by
  have ha := val_dcast_ne a
  have hb := val_dcast_ne b
  show (add a b).val = _
  unfold add
  by_cases h : a.d = b.d
  · simp only [h, dif_pos]
    simp only [val, h]
    push_cast
    rw [div_add_div_same]
  · simp only [h, dif_neg, not_false_iff]
    simp only [val]
    push_cast
    rw [div_add_div _ _ ha hb]
    ring_nf

theorem val_neg (a : Q) : (-a).val = -a.val := by
  show (neg a).val = _
  simp [neg, val, neg_div]

theorem val_sub (a b : Q) : (a - b).val = a.val - b.val := by
  show (a + (-b)).val = _
  rw [val_add, val_neg]; ring

theorem val_mul (a b : Q) : (a * b).val = a.val * b.val := by
  show (mul a b).val = _
  simp only [mul, val]
  push_cast
  rw [div_mul_div_comm]

theorem val_inv (a : Q) : (inv a).val = (a.val)⁻¹ := by
  unfold inv
  by_cases h : 0 < a.n
  · simp only [h, dif_pos]
    simp only [val]
    rw [inv_div]
  · by_cases h2 : a.n < 0
    · simp only [h, dif_neg, not_false_iff, h2, dif_pos]
      simp only [val]
      push_cast
      rw [inv_div, div_neg, neg_div, neg_neg]
    · have hz : a.n = 0 := by omega
      simp only [h, dif_neg, not_false_iff, h2]
      simp [val, hz]

theorem val_div (a b : Q) : (a / b).val = a.val / b.val := by
  show (a * inv b).val = _
  rw [val_mul, val_inv, div_eq_mul_inv]

theorem val_qabs (a : Q) : (qabs a).val = |a.val| := by
  simp only [qabs, val]
  rw [abs_div, abs_of_pos (val_dcast_pos a)]
  push_cast
  rfl

theorem le_iff_val (a b : Q) : a ≤ b ↔ a.val ≤ b.val := by
  show a.n * b.d ≤ b.n * a.d ↔ _
  rw [val, val, div_le_div_iff (val_dcast_pos a) (val_dcast_pos b)]
  exact_mod_cast Iff.rfl

theorem lt_iff_val (a b : Q) : a < b ↔ a.val < b.val := by
  show a.n * b.d < b.n * a.d ↔ _
  rw [val, val, div_lt_div_iff (val_dcast_pos a) (val_dcast_pos b)]
  exact_mod_cast Iff.rfl

theorem val_eq_of_beq {a b : Q} (h : beq a b = true) : a.val = b.val := by
  have h2 : a.n * b.d = b.n * a.d := by
    simpa [beq] using h
  rw [val, val, div_eq_div_iff (val_dcast_ne a) (val_dcast_ne b)]
  exact_mod_cast h2

theorem val_ne_of_not_beq {a b : Q} (h : beq a b = false) : a.val ≠ b.val := by
  intro hv
  have h2 : a.n * b.d = b.n * a.d := by
    have := (div_eq_div_iff (val_dcast_ne a) (val_dcast_ne b)).mp hv
    exact_mod_cast this
  simp [beq, h2] at h

/-- Integer ceiling of a `Q` (used to embed `np.arange`). -/
def ceilz (q : Q) : ℤ := -((-q.n) / q.d)

theorem ceilz_eq (q : Q) : ceilz q = ⌈q.val⌉ := by
  unfold ceilz
  have hd : ((q.d.toNat : ℤ)) = q.d := Int.toNat_of_nonneg (le_of_lt q.dpos)
  have hfl : (-q.n) / q.d = ⌊(-q.val)⌋ := by
    have h1 : ((-q.n : ℤ) : ℚ) / ((q.d.toNat : ℕ) : ℚ) = -q.val := by
      have hq : ((q.d.toNat : ℕ) : ℚ) = ((q.d : ℤ) : ℚ) := by exact_mod_cast hd
      rw [val, hq]
      push_cast
      ring
    rw [← h1, Rat.floor_intCast_div_natCast, hd]
  rw [hfl, Int.floor_neg, neg_neg]

end Q

/-- One thousandth, the default `passo` of `integrar`. -/
def milesimo : Q := ⟨1, 1000, by norm_num⟩

/-- `np.arange`-style grid: `n` points `start + k*step` (uniform denominators). -/
def arangeQ (start step : Q) (n : ℕ) : List Q :=
  (List.range n).map (fun k : ℕ => start + Q.ofInt (k : ℤ) * step)

/-- Number of points of `np.arange(start, stop, step)` for positive step:
`ceil((stop - start)/step)`, clamped at zero. -/
def arangeCount (start stop step : Q) : ℕ :=
  (Q.ceilz ((stop - start) / step)).toNat

/-- `np.linspace(lo, hi, n)`: `n` evenly spaced points including both ends. -/
def linspaceQ (lo hi : Q) (n : ℕ) : List Q :=
  (List.range n).map
    (fun k : ℕ => lo + Q.ofInt (k : ℤ) * ((hi - lo) / Q.ofInt ((n : ℤ) - 1)))

/-- `scipy.integrate.trapezoid` on sample points `pts` with values `g`. -/
def trapSum (g : Q → Q) : List Q → Q
  | x :: y :: rest => (y - x) * (g x + g y) / 2 + trapSum g (y :: rest)
  | _ => 0

/-- `np.nan_to_num(·, nan=0.0)` applied to one sample: a missing (NaN)
value becomes `0`. -/
def nanToNum (f : Q → Option Q) (x : Q) : Q := (f x).getD 0

/-- Embeds `src/utils/integration.py::integrar`: trapezoid rule over
`np.arange(a, b + passo/2, passo)`, with NaN samples replaced by `0`,
returning `0` for empty or reversed intervals. -/
def integrar (f : Q → Option Q) (a b : Q) : Q :=
  if b ≤ a then 0
  else
    let pts := arangeQ a milesimo (arangeCount a (b + milesimo / 2) milesimo)
    if pts.length < 2 then 0 else trapSum (nanToNum f) pts

def qmin (a b : Q) : Q := if a ≤ b then a else b

def qmax (a b : Q) : Q := if a ≤ b then b else a

def listMin : List Q → Q
  | [] => 0
  | x :: xs => xs.foldl qmin x

def listMax : List Q → Q
  | [] => 0
  | x :: xs => xs.foldl qmax x

/-!
Embedding of `src/core/cc.py` (class `PropriedadesCruzadas`).

Trigonometric functions and the SciPy solvers are oracles:
* `Trig` packages `tan(deg2rad(-θ))`, `tan(deg2rad(θ))`, `cos`, `sin`;
* `brentqO f a b` models `scipy.optimize.brentq` on a sign-change bracket,
  `none` modelling a raised `ValueError`/`RuntimeError`;
* `fsolveO f x0` models the `fsolve` fallback inside `_encontrar_raizes`
  (which, in the source, returns a numpy array that is appended as-is);
* `fsolveZc`/`brentqZc` model the waterline solvers of
  `_encontrar_zc_para_volume`.
-/

structure Trig where
  tanNeg : Q → Q
  tan : Q → Q
  cos : Q → Q
  sin : Q → Q

/-- `np.sign` of a sample; `none` models NaN. -/
def signO : Option Q → Option ℤ
  | none => none
  | some q => some (if q.n < 0 then -1 else if 0 < q.n then 1 else 0)

/-- `np.sign(f_i) != np.sign(f_{i+1})`: NaN compares unequal to everything,
including another NaN, so a `none` on either side counts as a change. -/
def signChange (a b : Option Q) : Bool :=
  match signO a, signO b with
  | some x, some y => x != y
  | _, _ => true

def adjPairs : List Q → List (Q × Q)
  | x :: y :: rest => (x, y) :: adjPairs (y :: rest)
  | _ => []

/-- An entry of the `raizes` list built by `_encontrar_raizes`: `scalar`
from `brentq`, `vec` the numpy array appended verbatim when `brentq`
failed and `fsolve` was used instead. -/
inductive RootItem where
  | scalar (r : Q)
  | vec (r : Q)

def RootItem.isVec : RootItem → Bool
  | .vec _ => true
  | _ => false

def RootItem.value : RootItem → Q
  | .scalar r => r
  | .vec r => r

def collectRoots (brentqO : (Q → Option Q) → Q → Q → Option Q)
    (fsolveO : (Q → Option Q) → Q → Q) (f : Q → Option Q) :
    List (Q × Q) → List RootItem
  | [] => []
  | (a, b) :: rest =>
      (match brentqO f a b with
       | some r => RootItem.scalar r
       | none => RootItem.vec (fsolveO f ((a + b) / 2))) ::
        collectRoots brentqO fsolveO f rest

/-- `sorted(list(set(...)))`: insert keeping ascending order, dropping
value-duplicates. -/
def insertSorted (r : Q) : List Q → List Q
  | [] => [r]
  | x :: xs =>
      if Q.beq r x then x :: xs
      else if r < x then r :: x :: xs
      else x :: insertSorted r xs

def dedupSort (l : List Q) : List Q := l.foldl (fun acc r => insertSorted r acc) []

/-- Embeds `PropriedadesCruzadas._encontrar_raizes`.  Samples `numPontos`
points, refines every adjacent sign-change pair with `brentq`; on `brentq`
failure the raw `fsolve` array is appended, and the final
`sorted(list(set(raizes)))` then raises `TypeError` (arrays are
unhashable). -/
def encontrarRaizes (brentqO : (Q → Option Q) → Q → Q → Option Q)
    (fsolveO : (Q → Option Q) → Q → Q) (funcao : Q → Option Q)
    (lo hi : Q) (numPontos : ℕ := 101) : Except String (List Q) :=
  let pts := linspaceQ lo hi numPontos
  let brs := (adjPairs pts).filter fun p => signChange (funcao p.1) (funcao p.2)
  let items := collectRoots brentqO fsolveO funcao brs
  if items.any RootItem.isVec then .error "TypeError: unhashable numpy.ndarray"
  else .ok (dedupSort (items.map RootItem.value))

/-- Embeds `_calcular_propriedades_bombordo` (lee side).  The source reads
`tan_theta` in the degenerate-angle branch (line 138) before assigning it
(line 168), so entering that branch raises `UnboundLocalError`. -/
def calcularPropriedadesBombordo (brentqO : (Q → Option Q) → Q → Q → Option Q)
    (fsolveO : (Q → Option Q) → Q → Q) (trig : Trig) (interpBB : Q → Option Q)
    (limites : List Q) (zc theta : Q) : Except String (Q × Q × Q) :=
  let zmin := listMin limites
  let zmax := listMax limites
  if Q.qabs theta < 1 ∨ (89:Q) < Q.qabs theta then
    .error "UnboundLocalError: tan_theta referenced before assignment"
  else
    let t := trig.tanNeg theta
    let ywl : Q → Q := fun z => (zc - z) / t
    let dif : Q → Option Q := fun z => (interpBB z).map (fun v => v - ywl z)
    match encontrarRaizes brentqO fsolveO dif zmin zmax 101 with
    | .error e => .error e
    | .ok raizes =>
      if zc ≤ zmin then .ok (0, 0, 0)
      else
        match raizes with
        | [] =>
            .ok (integrar interpBB zmin zmax,
                 integrar (fun z => (interpBB z).map fun v => v * v / 2) zmin zmax,
                 integrar (fun z => (interpBB z).map fun v => z * v) zmin zmax)
        | raiz :: _ =>
            let upper := qmin zc zmax
            let area1 := integrar interpBB zmin raiz
            let mz1 := integrar (fun z => (interpBB z).map fun v => z * v) zmin raiz
            let my1 := integrar (fun z => (interpBB z).map fun v => v * v / 2) zmin raiz
            let area2 := integrar (fun z => some (ywl z)) raiz upper
            let mz2 := integrar (fun z => some (z * ywl z)) raiz upper
            let my2 := integrar (fun z => some (ywl z * ywl z / 2)) raiz upper
            .ok (area1 + area2, my1 + my2, mz1 + mz2)

/-- Embeds `_calcular_propriedades_boreste` (windward side), with its
`zc`-versus-keel/deck and 0/1/2-intersection case logic. -/
def calcularPropriedadesBoreste (brentqO : (Q → Option Q) → Q → Q → Option Q)
    (fsolveO : (Q → Option Q) → Q → Q) (trig : Trig) (interpBE : Q → Option Q)
    (limites : List Q) (zc theta : Q) : Except String (Q × Q × Q) :=
  let zmin := listMin limites
  let zmax := listMax limites
  let t := trig.tanNeg theta
  if Q.qabs theta < 1 ∨ (89:Q) < Q.qabs theta then
    if Q.qabs t < 1 then
      let upper := qmin zc zmax
      .ok (integrar interpBE zmin upper,
           integrar (fun z => (interpBE z).map fun v => v * v / 2) zmin upper,
           integrar (fun z => (interpBE z).map fun v => z * v) zmin upper)
    else
      .ok (integrar interpBE zmin zmax,
           integrar (fun z => (interpBE z).map fun v => v * v / 2) zmin zmax,
           integrar (fun z => (interpBE z).map fun v => z * v) zmin zmax)
  else
    let ywl : Q → Q := fun z => (zc - z) / t
    let dif : Q → Option Q := fun z => (interpBE z).map (fun v => v - ywl z)
    match encontrarRaizes brentqO fsolveO dif zmin zmax 101 with
    | .error e => .error e
    | .ok raizes =>
      let intBalA := integrar interpBE
      let intBalMz := integrar (fun z => (interpBE z).map fun v => z * v)
      let intBalMy := integrar (fun z => (interpBE z).map fun v => v * v / 2)
      let intWlA := integrar (fun z => some (ywl z))
      let intWlMz := integrar (fun z => some (z * ywl z))
      let intWlMy := integrar (fun z => some (ywl z * ywl z / 2))
      if zc < zmin then
        match raizes with
        | r1 :: r2 :: _ =>
            .ok (intBalA r1 r2 - intWlA r1 r2,
                 intBalMy r1 r2 - intWlMy r1 r2,
                 intBalMz r1 r2 - intWlMz r1 r2)
        | [r1] =>
            .ok (intBalA r1 zmax - intWlA r1 zmax,
                 intBalMy r1 zmax - intWlMy r1 zmax,
                 intBalMz r1 zmax - intWlMz r1 zmax)
        | [] => .ok (0, 0, 0)
      else if zmin ≤ zc ∧ zc < zmax then
        match raizes with
        | [raiz] =>
            .ok (intBalA zmin raiz - intWlA zc raiz,
                 intBalMy zmin raiz - intWlMy zc raiz,
                 intBalMz zmin raiz - intWlMz zc raiz)
        | _ =>
            .ok (intBalA zmin zmax - intWlA zc zmax,
                 intBalMy zmin zmax - intWlMy zc zmax,
                 intBalMz zmin zmax - intWlMz zc zmax)
      else
        .ok (intBalA zmin zmax, intBalMy zmin zmax, intBalMz zmin zmax)

/-- A transverse station as `PropriedadesCruzadas` sees it: its position,
and (when the station has an interpolator) the starboard half-breadth
curve together with its anchor heights (`interp_be.x`). -/
structure BalizaCC where
  x : Q
  interp : Option ((Q → Option Q) × List Q)

/-- Embeds `_calcular_propriedades_secao_inclinada`: port interpolator is
the mirrored starboard one; the two sides are combined as
`(-area_bb + abs(area_be), -my_bb + my_be, -mz_bb + mz_be)`. -/
def calcularPropriedadesSecaoInclinada (brentqO : (Q → Option Q) → Q → Q → Option Q)
    (fsolveO : (Q → Option Q) → Q → Q) (trig : Trig) (bal : BalizaCC)
    (zc theta : Q) : Except String (Q × Q × Q) :=
  match bal.interp with
  | none => .ok (0, 0, 0)
  | some (fBE, limites) =>
    let fBB : Q → Option Q := fun z => (fBE z).map (fun v => -v)
    match calcularPropriedadesBombordo brentqO fsolveO trig fBB limites zc theta with
    | .error e => .error e
    | .ok (abb, mybb, mzbb) =>
      match calcularPropriedadesBoreste brentqO fsolveO trig fBE limites zc theta with
      | .error e => .error e
      | .ok (abe, mybe, mzbe) =>
          .ok (-abb + Q.qabs abe, -mybb + mybe, -mzbb + mzbe)

/-- `scipy.integrate.trapezoid(y=…, x=…)` over parallel lists. -/
def trapezoidXY : List Q → List Q → Q
  | x1 :: x2 :: xs, y1 :: y2 :: ys => (x2 - x1) * (y1 + y2) / 2 + trapezoidXY (x2 :: xs) (y2 :: ys)
  | _, _ => 0

/-- Embeds `_calcular_propriedades_para_zc_inclinado`: per-station section
properties integrated (trapezoid) along the station positions. -/
def calcularPropriedadesParaZc (brentqO : (Q → Option Q) → Q → Q → Option Q)
    (fsolveO : (Q → Option Q) → Q → Q) (trig : Trig) (balizas : List BalizaCC)
    (zc theta : Q) : Except String (Q × Q × Q) := do
  let props ← balizas.mapM
    (fun b => calcularPropriedadesSecaoInclinada brentqO fsolveO trig b zc theta)
  let xs := balizas.map (·.x)
  return (trapezoidXY xs (props.map (·.1)),
          trapezoidXY xs (props.map (·.2.1)),
          trapezoidXY xs (props.map (·.2.2)))


/-- Final part of `_encontrar_zc_para_volume` (after a solver produced
`zc_solucao`): recompute the hull properties at the solved waterline and
form the centroids, guarding the divisions by `volume > 1e-6`. -/
def encontrarZcFinaliza (brentqO : (Q → Option Q) → Q → Q → Option Q)
    (fsolveO : (Q → Option Q) → Q → Q) (trig : Trig) (balizas : List BalizaCC)
    (theta zcSol : Q) (iter : ℕ) : Except String (Option (Q × Q × Q × Q × ℕ)) :=
  match calcularPropriedadesParaZc brentqO fsolveO trig balizas zcSol theta with
  | .error e => .error e
  | .ok (vol, myT, mzT) =>
      let ycb := if (⟨1, 1000000, by norm_num⟩ : Q) < vol then myT / vol else 0
      let zcb := if (⟨1, 1000000, by norm_num⟩ : Q) < vol then mzT / vol else 0
      .ok (some (zcSol, ycb, zcb, vol, iter))

/-- The volume-residual objective handed to the waterline solvers. -/
def objetivoZc (brentqO : (Q → Option Q) → Q → Q → Option Q)
    (fsolveO : (Q → Option Q) → Q → Q) (trig : Trig) (balizas : List BalizaCC)
    (volumeDesejado theta : Q) : Q → Except String Q := fun z =>
  (calcularPropriedadesParaZc brentqO fsolveO trig balizas z theta).map
    (fun p => p.1 - volumeDesejado)

/-- The `try` block of `_encontrar_zc_para_volume`: run `fsolve` from the
initial guess and accept its candidate only when the recomputed volume
error is below `0.01 * volume_desejado`; `none` models the raised
exception that sends the solve to the fallback. -/
def encontrarZcTentativaFsolve (brentqO : (Q → Option Q) → Q → Q → Option Q)
    (fsolveO : (Q → Option Q) → Q → Q) (trig : Trig)
    (fsolveZc : (Q → Except String Q) → Q → Q × ℕ)
    (balizas : List BalizaCC) (volumeDesejado theta zcChute : Q) : Option (Q × ℕ) :=
  let obj := objetivoZc brentqO fsolveO trig balizas volumeDesejado theta
  match obj zcChute with
  | .error _ => none
  | .ok _ =>
    let c := fsolveZc obj zcChute
    match obj c.1 with
    | .error _ => none
    | .ok errf =>
        if Q.qabs errf < (⟨1, 100, by norm_num⟩ : Q) * volumeDesejado then some c
        else none

/-- Embeds `_encontrar_zc_para_volume`: `fsolve` attempt first; on
rejection the `brentq` fallback over
`[-0.5*boca*|tan θ| - 1, 0.5*boca*|tan θ| + pontal + 1]`; if that also
fails (`none`, or objective exceptions at the bracket ends) the function
returns the NaN sentinel tuple (`none`) instead of raising. -/
def encontrarZcParaVolume (brentqO : (Q → Option Q) → Q → Q → Option Q)
    (fsolveO : (Q → Option Q) → Q → Q) (trig : Trig)
    (fsolveZc : (Q → Except String Q) → Q → Q × ℕ)
    (brentqZc : (Q → Except String Q) → Q → Q → Option (Q × ℕ))
    (balizas : List BalizaCC) (volumeDesejado theta zcChute bocaMax pontalMax : Q) :
    Except String (Option (Q × Q × Q × Q × ℕ)) :=
  let obj := objetivoZc brentqO fsolveO trig balizas volumeDesejado theta
  match encontrarZcTentativaFsolve brentqO fsolveO trig fsolveZc balizas
      volumeDesejado theta zcChute with
  | some c => encontrarZcFinaliza brentqO fsolveO trig balizas theta c.1 c.2
  | none =>
    let tanAbs := Q.qabs (trig.tan theta)
    let zcMinBusca := -(⟨1, 2, by norm_num⟩ : Q) * bocaMax * tanAbs - 1
    let zcMaxBusca := (⟨1, 2, by norm_num⟩ : Q) * bocaMax * tanAbs + pontalMax + 1
    match obj zcMinBusca, obj zcMaxBusca with
    | .ok _, .ok _ =>
      match brentqZc obj zcMinBusca zcMaxBusca with
      | some c => encontrarZcFinaliza brentqO fsolveO trig balizas theta c.1 c.2
      | none => .ok none
    | _, _ => .ok none

/-- Everything `calcular_kn_para_ponto` needs besides the grid point. -/
structure KnEnv where
  brentqO : (Q → Option Q) → Q → Q → Option Q
  fsolveO : (Q → Option Q) → Q → Q
  trig : Trig
  fsolveZc : (Q → Except String Q) → Q → Q × ℕ
  brentqZc : (Q → Except String Q) → Q → Q → Option (Q × ℕ)
  balizas : List BalizaCC
  densidade : Q
  chuteZc : Q → Q
  bocaMax : Q
  pontalMax : Q

/-- Embeds `calcular_kn_para_ponto`: negligible volume or angle short-
circuit to `0`; a NaN waterline solve propagates as `none`; otherwise
`KN = Ycb*cos θ + Zcb*sin θ`. -/
def calcularKnParaPonto (env : KnEnv) (deslocamento theta : Q) :
    Except String (Option Q) :=
  let volumeDesejado := deslocamento / env.densidade
  if volumeDesejado < (⟨1, 1000, by norm_num⟩ : Q) ∨
      Q.qabs theta < (⟨1, 1000, by norm_num⟩ : Q) then .ok (some 0)
  else
    let zcChute := env.chuteZc deslocamento
    match encontrarZcParaVolume env.brentqO env.fsolveO env.trig env.fsolveZc
        env.brentqZc env.balizas volumeDesejado theta zcChute env.bocaMax env.pontalMax with
    | .error e => .error e
    | .ok none => .ok none
    | .ok (some (_, ycb, zcb, _, _)) =>
        .ok (some (ycb * env.trig.cos theta + zcb * env.trig.sin theta))

/-- One task of the KN grid (`calcular_kn_worker`): returns the inputs
with the point result. -/
def calcularKnWorker (env : KnEnv) (p : Q × Q) : Q × Q × Except String (Option Q) :=
  (p.1, p.2, calcularKnParaPonto env p.1 p.2)

/-- The KN grid (`calcular_curvas_kn`): an independent map of
`calcular_kn_worker` over the (displacement, angle) tasks. -/
def calcularCurvasKn (env : KnEnv) (tarefas : List (Q × Q)) :
    List (Q × Q × Except String (Option Q)) :=
  tarefas.map (calcularKnWorker env)

/-! Value-level facts about the grids and trapezoid sums. -/

theorem Q.val_ofInt (n : ℤ) : (Q.ofInt n).val = (n : ℚ) := by
  simp [Q.ofInt, Q.val]

theorem qmin_val_le_left (a b : Q) : (qmin a b).val ≤ a.val := by
  unfold qmin
  split
  · exact le_refl _
  · next h =>
      have h2 : ¬ a.val ≤ b.val := fun hc => h ((Q.le_iff_val a b).mpr hc)
      exact le_of_lt (not_le.mp h2)

theorem arangeQ_mem_val {s h : Q} {n : ℕ} {x : Q} (hx : x ∈ arangeQ s h n) :
    ∃ k : ℕ, k < n ∧ x.val = s.val + k * h.val := by
  unfold arangeQ at hx
  rcases List.mem_map.mp hx with ⟨k, hk, rfl⟩
  refine ⟨k, List.mem_range.mp hk, ?_⟩
  rw [Q.val_add, Q.val_mul, Q.val_ofInt]
  push_cast
  ring

theorem trapSum_val_nonpos (g : Q → Q) (hg : ∀ x, (g x).val ≤ 0) :
    ∀ pts : List Q, pts.Chain' (fun a b => a.val ≤ b.val) →
      (trapSum g pts).val ≤ 0
  | [], _ => by simp [trapSum, Q.val_zero]
  | [_], _ => by simp [trapSum, Q.val_zero]
  | x :: y :: rest, hch => by
      rcases List.chain'_cons.mp hch with ⟨hxy, hrest⟩
      have ih := trapSum_val_nonpos g hg (y :: rest) hrest
      show ((y - x) * (g x + g y) / 2 + trapSum g (y :: rest)).val ≤ 0
      rw [Q.val_add, Q.val_div, Q.val_mul, Q.val_sub, Q.val_add]
      have hterm : (y.val - x.val) * ((g x).val + (g y).val) ≤ 0 :=
        mul_nonpos_of_nonneg_of_nonpos (by linarith)
          (by have := hg x; have := hg y; linarith)
      have h2 : (2 : Q).val = 2 := by
        have := Q.val_ofNat 2; simpa using this
      rw [h2]
      linarith

/-- Trapezoid sum of the wedge integrand `(zc - z)/t` with `t < 0` over a
grid whose adjacent pairs `x, y` satisfy `x ≤ y` and `x + y ≤ 2*zc`. -/
theorem trapSum_val_wedge_nonpos (g : Q → Q) (zc t : ℚ) (ht : t < 0)
    (hg : ∀ x, (g x).val = (zc - x.val) / t) :
    ∀ pts : List Q,
      pts.Chain' (fun a b => a.val ≤ b.val ∧ a.val + b.val ≤ 2 * zc) →
      (trapSum g pts).val ≤ 0
  | [], _ => by simp [trapSum, Q.val_zero]
  | [_], _ => by simp [trapSum, Q.val_zero]
  | x :: y :: rest, hch => by
      rcases List.chain'_cons.mp hch with ⟨⟨hxy, hsum⟩, hrest⟩
      have ih := trapSum_val_wedge_nonpos g zc t ht hg (y :: rest) hrest
      show ((y - x) * (g x + g y) / 2 + trapSum g (y :: rest)).val ≤ 0
      rw [Q.val_add, Q.val_div, Q.val_mul, Q.val_sub, Q.val_add, hg, hg]
      have hgsum : (zc - x.val) / t + (zc - y.val) / t ≤ 0 := by
        rw [div_add_div_same]
        apply div_nonpos_of_nonneg_of_nonpos (by linarith) (le_of_lt ht)
      have hterm : (y.val - x.val) * ((zc - x.val) / t + (zc - y.val) / t) ≤ 0 :=
        mul_nonpos_of_nonneg_of_nonpos (by linarith) hgsum
      have h2 : (2 : Q).val = 2 := by
        have := Q.val_ofNat 2; simpa using this
      rw [h2]
      linarith

theorem milesimo_val : milesimo.val = 1/1000 := by
  simp [milesimo, Q.val]

theorem arangeQ_chain_le (s h : Q) (hh : 0 ≤ h.val) (n : ℕ) :
    (arangeQ s h n).Chain' (fun a b => a.val ≤ b.val) := by
  unfold arangeQ
  rw [List.chain'_map]
  cases n with
  | zero => simp
  | succ m =>
      rw [List.chain'_range_succ]
      intro k _
      rw [Q.val_add, Q.val_mul, Q.val_ofInt, Q.val_add, Q.val_mul, Q.val_ofInt]
      push_cast
      nlinarith [hh]

theorem arangeQ_chain_wedge (s h : Q) (n : ℕ) (zc : ℚ) (hh : 0 ≤ h.val)
    (hb : s.val + ((n : ℚ) - 1) * h.val < zc + h.val / 2) :
    (arangeQ s h n).Chain'
      (fun a b => a.val ≤ b.val ∧ a.val + b.val ≤ 2 * zc) := by
  unfold arangeQ
  rw [List.chain'_map]
  cases n with
  | zero => simp
  | succ m =>
      rw [List.chain'_range_succ]
      intro k hk
      rw [Q.val_add, Q.val_mul, Q.val_ofInt, Q.val_add, Q.val_mul, Q.val_ofInt]
      have hkm : ((k : ℚ)) + 1 ≤ (m : ℚ) := by exact_mod_cast hk
      have hbm : s.val + (m : ℚ) * h.val < zc + h.val / 2 := by
        have : (((m + 1 : ℕ)) : ℚ) - 1 = (m : ℚ) := by push_cast; ring
        rw [this] at hb
        exact hb
      constructor
      · push_cast
        nlinarith [hh]
      · push_cast
        nlinarith [hh, hkm, hbm]

theorem arangeCount_cast_lt (s stop h : Q) (hh : 0 < h.val)
    (hlt : s.val < stop.val) :
    ((arangeCount s stop h : ℕ) : ℚ) < (stop.val - s.val) / h.val + 1 := by
  unfold arangeCount
  have hq : ((stop - s) / h).val = (stop.val - s.val) / h.val := by
    rw [Q.val_div, Q.val_sub]
  have hpos : (0 : ℚ) < ((stop - s) / h).val := by
    rw [hq]
    exact div_pos (by linarith) hh
  have hceil : (1 : ℤ) ≤ Q.ceilz ((stop - s) / h) := by
    rw [Q.ceilz_eq]
    exact Int.ceil_pos.mpr hpos
  have htn : ((Q.ceilz ((stop - s) / h)).toNat : ℤ) = Q.ceilz ((stop - s) / h) :=
    Int.toNat_of_nonneg (by omega)
  have hlt2 : ((Q.ceilz ((stop - s) / h) : ℤ) : ℚ) < (stop.val - s.val) / h.val + 1 := by
    rw [Q.ceilz_eq, hq] at *
    exact_mod_cast Int.ceil_lt_add_one _
  calc ((( (Q.ceilz ((stop - s) / h)).toNat : ℕ)) : ℚ)
      = (((Q.ceilz ((stop - s) / h)).toNat : ℤ) : ℚ) := by push_cast; ring
    _ = ((Q.ceilz ((stop - s) / h) : ℤ) : ℚ) := by rw [htn]
    _ < (stop.val - s.val) / h.val + 1 := hlt2

/-- `integrar` of a pointwise nonpositive integrand is nonpositive. -/
theorem integrar_nonpos (f : Q → Option Q) (hf : ∀ z, (nanToNum f z).val ≤ 0)
    (a b : Q) : (integrar f a b).val ≤ 0 := by
  by_cases hba : b ≤ a
  · simp [integrar, hba, Q.val_zero]
  · by_cases hlen :
        (arangeQ a milesimo (arangeCount a (b + milesimo / 2) milesimo)).length < 2
    · simp [integrar, hba, hlen, Q.val_zero]
    · have heq : integrar f a b
          = trapSum (nanToNum f) (arangeQ a milesimo (arangeCount a (b + milesimo / 2) milesimo)) := by
        simp [integrar, hba, hlen]
      rw [heq]
      exact trapSum_val_nonpos (nanToNum f) hf _
        (arangeQ_chain_le a milesimo (by rw [milesimo_val]; norm_num) _)

/-- `integrar` of the inclined-waterline integrand `(zc - z)/t` with
`t < 0` over `[a, b]` with `b ≤ zc` is nonpositive: every sample of the
`np.arange` grid except possibly the final half-step overshoot lies below
`zc`, and each adjacent trapezoid still has a nonpositive mean. -/
theorem integrar_wl_nonpos (zc t a b : Q) (ht : t.val < 0)
    (hbzc : b.val ≤ zc.val) :
    (integrar (fun z => some ((zc - z) / t)) a b).val ≤ 0 := by
  by_cases hba : b ≤ a
  · simp [integrar, hba, Q.val_zero]
  · by_cases hlen :
        (arangeQ a milesimo (arangeCount a (b + milesimo / 2) milesimo)).length < 2
    · simp [integrar, hba, hlen, Q.val_zero]
    · have heq : integrar (fun z => some ((zc - z) / t)) a b
          = trapSum (nanToNum (fun z => some ((zc - z) / t)))
              (arangeQ a milesimo (arangeCount a (b + milesimo / 2) milesimo)) := by
        simp [integrar, hba, hlen]
      rw [heq]
      have hav : a.val < b.val := by
        have h2 : ¬ b.val ≤ a.val := fun hc => hba ((Q.le_iff_val b a).mpr hc)
        exact not_le.mp h2
      clear hba hlen heq
      have hmv : (0:ℚ) < milesimo.val := by rw [milesimo_val]; norm_num
      have hg : ∀ x : Q, (nanToNum (fun z => some ((zc - z) / t)) x).val
          = (zc.val - x.val) / t.val := by
        intro x
        show (((zc - x) / t)).val = _
        rw [Q.val_div, Q.val_sub]
      apply trapSum_val_wedge_nonpos _ zc.val t.val ht hg
      apply arangeQ_chain_wedge _ _ _ _ (le_of_lt hmv)
      have h2v : (2 : Q).val = 2 := by
        have := Q.val_ofNat 2; simpa using this
      have hstop : (b + milesimo / 2).val = b.val + milesimo.val / 2 := by
        rw [Q.val_add, Q.val_div, h2v]
      have hcnt := arangeCount_cast_lt a (b + milesimo / 2) milesimo hmv
        (by rw [hstop]; linarith)
      rw [hstop] at hcnt
      have hn1 : ((arangeCount a (b + milesimo / 2) milesimo : ℕ) : ℚ) - 1
          < (b.val + milesimo.val / 2 - a.val) / milesimo.val := by linarith
      have hn2 : (((arangeCount a (b + milesimo / 2) milesimo : ℕ) : ℚ) - 1) * milesimo.val
          < b.val + milesimo.val / 2 - a.val := (lt_div_iff hmv).mp hn1
      linarith [hn2, hbzc]

instance : DecidableEq Q := fun a b =>
  if h : a.n = b.n ∧ a.d = b.d then
    isTrue (by cases a; cases b; simp_all)
  else
    isFalse (by intro he; cases he; simp_all)

/-- `RootsSpec res P`: if the root search returned normally, every root in
its list satisfies `P`. -/
def RootsSpec (res : Except String (List Q)) (P : Q → Prop) : Prop :=
  ∀ l, res = Except.ok l → ∀ r ∈ l, P r

/-- The property that an exact intersection of the (port-side) offset
curve with the inclined waterline must satisfy. -/
def BBRootP (interpBB : Q → Option Q) (zc t : Q) (r : Q) : Prop :=
  ∃ w, interpBB r = some w ∧ w.val = ((zc - r) / t).val

/-- The lee-side routine never reports a positive submerged area: the
offset integrals have nonpositive integrand (the port half-breadths are
mirrored negative), and the water-wedge integral is nonpositive for
either heel direction (for `tan < 0` each trapezoid has nonpositive mean;
for `tan > 0` any exact intersection lies at or above `min(zc, z_max)`,
so the wedge interval is reversed and `integrar` returns `0`). -/
theorem bombordo_area_val_nonpos
    (brentqO : (Q → Option Q) → Q → Q → Option Q)
    (fsolveO : (Q → Option Q) → Q → Q) (trig : Trig) (interpBB : Q → Option Q)
    (limites : List Q) (zc theta : Q)
    (hfb : ∀ z, (nanToNum interpBB z).val ≤ 0)
    (hroots : RootsSpec
      (encontrarRaizes brentqO fsolveO
        (fun z => (interpBB z).map (fun v => v - (zc - z) / trig.tanNeg theta))
        (listMin limites) (listMax limites) 101)
      (BBRootP interpBB zc (trig.tanNeg theta)))
    (res : Q × Q × Q)
    (hok : calcularPropriedadesBombordo brentqO fsolveO trig interpBB limites zc theta
      = Except.ok res) :
    res.1.val ≤ 0 := by
  unfold calcularPropriedadesBombordo at hok
  by_cases hdeg : Q.qabs theta < 1 ∨ (89:Q) < Q.qabs theta
  · rw [if_pos hdeg] at hok
    cases hok
  · rw [if_neg hdeg] at hok
    dsimp only at hok
    cases hE : encontrarRaizes brentqO fsolveO
        (fun z => (interpBB z).map (fun v => v - (zc - z) / trig.tanNeg theta))
        (listMin limites) (listMax limites) 101 with
    | error e => rw [hE] at hok; cases hok
    | ok l =>
      rw [hE] at hok
      dsimp only at hok
      by_cases hzc : zc ≤ listMin limites
      · rw [if_pos hzc] at hok
        cases hok
        simp [Q.val_zero]
      · rw [if_neg hzc] at hok
        clear hzc hdeg
        cases l with
        | nil =>
          cases hok
          exact integrar_nonpos interpBB hfb _ _
        | cons raiz rest =>
          cases hok
          show (integrar interpBB (listMin limites) raiz
            + integrar (fun z => some ((zc - z) / trig.tanNeg theta)) raiz
                (qmin zc (listMax limites))).val ≤ 0
          rw [Q.val_add]
          have h1 : (integrar interpBB (listMin limites) raiz).val ≤ 0 :=
            integrar_nonpos interpBB hfb _ _
          have hr : BBRootP interpBB zc (trig.tanNeg theta) raiz :=
            hroots (raiz :: rest) hE raiz (List.mem_cons_self _ _)
          rcases lt_trichotomy (trig.tanNeg theta).val 0 with htn | htn | htn
          · have h2 := integrar_wl_nonpos zc (trig.tanNeg theta) raiz
              (qmin zc (listMax limites)) htn (qmin_val_le_left zc (listMax limites))
            linarith
          · have h2 : (integrar (fun z => some ((zc - z) / trig.tanNeg theta)) raiz
                (qmin zc (listMax limites))).val ≤ 0 := by
              apply integrar_nonpos
              intro z
              show (((zc - z) / trig.tanNeg theta)).val ≤ 0
              rw [Q.val_div, htn, div_zero]
            linarith
          · rcases hr with ⟨w, hw, hwv⟩
            have hwle : w.val ≤ 0 := by
              have := hfb raiz
              rw [nanToNum, hw] at this
              exact this
            have hvdiv : ((zc - raiz) / trig.tanNeg theta).val
                = (zc.val - raiz.val) / (trig.tanNeg theta).val := by
              rw [Q.val_div, Q.val_sub]
            have hzcr : zc.val ≤ raiz.val := by
              rw [hvdiv] at hwv
              by_contra hc
              have hpos : 0 < (zc.val - raiz.val) / (trig.tanNeg theta).val :=
                div_pos (by linarith [not_le.mp hc]) htn
              linarith [hwv ▸ hwle]
            have hle : qmin zc (listMax limites) ≤ raiz :=
              (Q.le_iff_val _ _).mpr (le_trans (qmin_val_le_left _ _) hzcr)
            have h2 : integrar (fun z => some ((zc - z) / trig.tanNeg theta)) raiz
                (qmin zc (listMax limites)) = 0 := by
              unfold integrar
              rw [if_pos hle]
            rw [h2, Q.val_zero]
            clear hle hw
            linarith

def isOkE {e a : Type} : Except e a → Bool
  | .ok _ => true
  | .error _ => false

instance {e a : Type} [DecidableEq e] [DecidableEq a] : DecidableEq (Except e a) :=
  fun x y =>
    match x, y with
    | .ok u, .ok v =>
        if h : u = v then isTrue (by rw [h]) else isFalse (by intro hc; cases hc; exact h rfl)
    | .error u, .error v =>
        if h : u = v then isTrue (by rw [h]) else isFalse (by intro hc; cases hc; exact h rfl)
    | .ok _, .error _ => isFalse (by intro hc; cases hc)
    | .error _, .ok _ => isFalse (by intro hc; cases hc)

/-- C2: for every station, waterline height `zc` and heel angle, whenever
the combined section computation (`-area_bb + abs(area_be)`, windward as
negative half-breadth region) returns a value, the total section area is
nonnegative.  Physical validity of the inputs enters as: the half-breadth
offsets are nonnegative, and the refined intersections returned by the
root search are exact intersections of the mirrored offset curve with the
inclined waterline. -/
theorem c2_area_secao_nonneg
    (brentqO : (Q → Option Q) → Q → Q → Option Q)
    (fsolveO : (Q → Option Q) → Q → Q) (trig : Trig) (bal : BalizaCC)
    (zc theta : Q)
    (hf : ∀ fBE lim, bal.interp = some (fBE, lim) → ∀ z, 0 ≤ (nanToNum fBE z).val)
    (hroots : ∀ fBE lim, bal.interp = some (fBE, lim) →
      RootsSpec (encontrarRaizes brentqO fsolveO
        (fun z => ((fBE z).map (fun v => -v)).map
          (fun v => v - (zc - z) / trig.tanNeg theta))
        (listMin lim) (listMax lim) 101)
        (BBRootP (fun z => (fBE z).map (fun v => -v)) zc (trig.tanNeg theta)))
    (t : Q × Q × Q)
    (hok : calcularPropriedadesSecaoInclinada brentqO fsolveO trig bal zc theta
      = Except.ok t) :
    0 ≤ t.1.val := by
  unfold calcularPropriedadesSecaoInclinada at hok
  cases hbal : bal.interp with
  | none =>
      rw [hbal] at hok
      cases hok
      simp [Q.val_zero]
  | some p =>
      rcases p with ⟨fBE, lim⟩
      rw [hbal] at hok
      dsimp only at hok
      cases hBB : calcularPropriedadesBombordo brentqO fsolveO trig
          (fun z => (fBE z).map (fun v => -v)) lim zc theta with
      | error e => rw [hBB] at hok; cases hok
      | ok tb =>
        rw [hBB] at hok
        dsimp only at hok
        cases hBE : calcularPropriedadesBoreste brentqO fsolveO trig fBE lim zc theta with
        | error e => rw [hBE] at hok; cases hok
        | ok te =>
          rw [hBE] at hok
          dsimp only at hok
          rcases tb with ⟨abb, mybb, mzbb⟩
          rcases te with ⟨abe, mybe, mzbe⟩
          cases hok
          show 0 ≤ (-abb + Q.qabs abe).val
          rw [Q.val_add, Q.val_neg, Q.val_qabs]
          have habb : abb.val ≤ 0 := by
            have hfb : ∀ z, (nanToNum (fun z => (fBE z).map (fun v => -v)) z).val ≤ 0 := by
              intro z
              have hz := hf fBE lim hbal z
              unfold nanToNum at hz
              show ((Option.map (fun v => -v) (fBE z)).getD 0).val ≤ 0
              cases hfe : fBE z with
              | none => simp [Q.val_zero]
              | some v =>
                  rw [hfe] at hz
                  simp only [Option.map_some', Option.getD_some] at hz ⊢
                  rw [Q.val_neg]
                  linarith
            exact bombordo_area_val_nonpos brentqO fsolveO trig _ lim zc theta hfb
              (hroots fBE lim hbal) (abb, mybb, mzbb) hBB
          have := abs_nonneg abe.val
          linarith

/-! Concrete witness data: a box-like station of constant half-breadth 1
between heights 0 and 1/100, heel 45° (so `tan(-45°) = -1` exactly), and
solver oracles that return the right bracket end (`brentq`) and the
initial guess (`fsolve`). -/

def trigW : Trig := ⟨fun _ => -1, fun _ => 1, fun _ => ⟨7, 10, by norm_num⟩, fun _ => ⟨7, 10, by norm_num⟩⟩

def brQW : (Q → Option Q) → Q → Q → Option Q := fun _ _ b => some b

def fsQW : (Q → Option Q) → Q → Q := fun _ x => x

def fbeW : Q → Option Q := fun _ => some 1

def limW : List Q := [0, ⟨1, 100, by norm_num⟩]

def balW : BalizaCC := ⟨0, some (fbeW, limW)⟩

/-- Witness for C2: concrete evaluation at the box-like station. -/
theorem c2_area_secao_nonneg_witness :
    ∃ t, calcularPropriedadesSecaoInclinada brQW fsQW trigW balW 0 45 = Except.ok t
      ∧ 0 ≤ t.1.val := by
  cases hE : calcularPropriedadesSecaoInclinada brQW fsQW trigW balW 0 45 with
  | error e =>
      have hok : isOkE (calcularPropriedadesSecaoInclinada brQW fsQW trigW balW 0 45)
          = true := by decide
      rw [hE] at hok
      cases hok
  | ok t =>
      refine ⟨t, rfl, ?_⟩
      apply c2_area_secao_nonneg brQW fsQW trigW balW 0 45 ?_ ?_ t hE
      · intro fBE lim hb z
        have hinj : fbeW = fBE ∧ limW = lim := by
          simpa [balW] using hb
        rcases hinj with ⟨rfl, rfl⟩
        show (0:ℚ) ≤ ((some (1:Q)).getD 0).val
        simp only [Option.getD_some]
        rw [Q.val_one]
        norm_num
      · intro fBE lim hb
        have hinj : fbeW = fBE ∧ limW = lim := by
          simpa [balW] using hb
        rcases hinj with ⟨rfl, rfl⟩
        intro l hl r hr
        have hres : encontrarRaizes brQW fsQW
            (fun z => ((fbeW z).map (fun v => -v)).map
              (fun v => v - ((0:Q) - z) / trigW.tanNeg 45))
            (listMin limW) (listMax limW) 101 = Except.ok [] := by decide
        rw [hres] at hl
        cases hl
        cases hr

/-- Small-angle trig oracle: `tan(-0.5°) ≈ -0.00873`. -/
def trigFlatW : Trig :=
  ⟨fun _ => ⟨-873, 100000, by norm_num⟩, fun _ => ⟨873, 100000, by norm_num⟩,
   fun _ => 1, fun _ => 0⟩

/-- Steep-angle trig oracle: `tan(-89.5°) ≈ -114.6`. -/
def trigSteepW : Trig :=
  ⟨fun _ => ⟨-1146, 10, by norm_num⟩, fun _ => ⟨1146, 10, by norm_num⟩,
   fun _ => 0, fun _ => 1⟩

/-- C1 (code bug, `cc.py` lines 137-138): in the degenerate regimes
`|θ| < 1°` or `|θ| > 89°` the lee-side routine reads `tan_theta` before
its assignment (line 168) and raises `UnboundLocalError` instead of
performing the claimed flat/vertical integration; the windward-side
routine, which assigns `tan_theta` first (line 260), does return the flat
integral up to `min(zc, z_max)` for `|θ| < 1` (and the full integral up
to `z_max` for `|θ| > 89` with `|tan| ≥ 1`), as the claim describes. -/
theorem c1_degenerate_bombordo_unbound :
    (calcularPropriedadesBombordo brQW fsQW trigFlatW
        (fun z => (fbeW z).map (fun v => -v)) limW milesimo (⟨1, 2, by norm_num⟩ : Q)
      = Except.error "UnboundLocalError: tan_theta referenced before assignment")
    ∧ (calcularPropriedadesBombordo brQW fsQW trigSteepW
        (fun z => (fbeW z).map (fun v => -v)) limW milesimo (⟨179, 2, by norm_num⟩ : Q)
      = Except.error "UnboundLocalError: tan_theta referenced before assignment")
    ∧ (calcularPropriedadesBoreste brQW fsQW trigFlatW fbeW limW milesimo
          (⟨1, 2, by norm_num⟩ : Q)
      = Except.ok (integrar fbeW (listMin limW) (qmin milesimo (listMax limW)),
          integrar (fun z => (fbeW z).map fun v => v * v / 2) (listMin limW)
            (qmin milesimo (listMax limW)),
          integrar (fun z => (fbeW z).map fun v => z * v) (listMin limW)
            (qmin milesimo (listMax limW))))
    ∧ (calcularPropriedadesBoreste brQW fsQW trigSteepW fbeW limW milesimo
          (⟨179, 2, by norm_num⟩ : Q)
      = Except.ok (integrar fbeW (listMin limW) (listMax limW),
          integrar (fun z => (fbeW z).map fun v => v * v / 2) (listMin limW) (listMax limW),
          integrar (fun z => (fbeW z).map fun v => z * v) (listMin limW) (listMax limW))) := by
  refine ⟨by decide, by decide, by decide, by decide⟩

/-- Secant-rule refinement oracle: returns the exact root when the
bracketed difference function is affine (as it is for box stations). -/
def secanteO : (Q → Option Q) → Q → Q → Option Q := fun g a b =>
  let fa := (g a).getD 0
  let fb := (g b).getD 0
  if Q.beq fa fb then some ((a + b) / 2)
  else some (a - fa * ((b - a) / (fb - fa)))

/-- Odd/even-consistent trig oracle for ±45°: `tan(∓45°) = ∓1` exactly,
`cos` even, `sin` odd (7/10 stands in for `√2/2`). -/
def trigC5 : Trig :=
  ⟨fun th => if th < 0 then 1 else -1,
   fun th => if th < 0 then -1 else 1,
   fun _ => ⟨7, 10, by norm_num⟩,
   fun th => if th < 0 then ⟨-7, 10, by norm_num⟩ else ⟨7, 10, by norm_num⟩⟩

def fbeC5 : Q → Option Q := fun _ => some milesimo

def limC5 : List Q := [0, ⟨4, 1000, by norm_num⟩]

def balizasC5 : List BalizaCC :=
  [⟨0, some (fbeC5, limC5)⟩, ⟨500, some (fbeC5, limC5)⟩]

def envC5 : KnEnv :=
  ⟨secanteO, fsQW, trigC5, fun _ x0 => (x0, 1), fun _ _ _ => none, balizasC5,
   1, fun _ => ⟨2, 1000, by norm_num⟩, ⟨2, 1000, by norm_num⟩, ⟨4, 1000, by norm_num⟩⟩

/-- Antisymmetry test for two KN point results: `false` only when both
points produced values and they are not negatives of each other. -/
def knAnti (r1 r2 : Except String (Option Q)) : Bool :=
  match r1, r2 with
  | .ok (some k1), .ok (some k2) => Q.beq k2 (-k1)
  | _, _ => true

theorem knAnti_false {r1 r2 : Except String (Option Q)} (h : knAnti r1 r2 = false) :
    ∃ k1 k2, r1 = Except.ok (some k1) ∧ r2 = Except.ok (some k2)
      ∧ k2.val ≠ -k1.val := by
  match r1, r2 with
  | .ok (some k1), .ok (some k2) =>
      refine ⟨k1, k2, rfl, rfl, ?_⟩
      have hb : Q.beq k2 (-k1) = false := h
      have := Q.val_ne_of_not_beq hb
      rw [Q.val_neg] at this
      exact this
  | .ok (some _), .ok none => cases h
  | .ok (some _), .error _ => cases h
  | .ok none, _ => cases h
  | .error _, _ => cases h

/-- C5 (code bug): for the symmetric two-station box hull `balizasC5`,
with odd/even-consistent trig values and solver oracles returning exact
roots, the cross-curve computation yields `KN(Δ, -45°) ≠ -KN(Δ, 45°)`:
at `-45°` both side routines integrate their water wedge over a reversed
interval (`integrar` clamps it to `0`), losing the wedge areas, so the
mirrored waterplane produces different centroids. -/
theorem c5_kn_not_antisymmetric :
    ∃ k1 k2,
      calcularKnParaPonto envC5 (⟨2, 1000, by norm_num⟩ : Q) 45 = Except.ok (some k1)
      ∧ calcularKnParaPonto envC5 (⟨2, 1000, by norm_num⟩ : Q) (-45) = Except.ok (some k2)
      ∧ k2.val ≠ -k1.val :=
  knAnti_false (by decide)

def isOkSomeE {e a : Type} : Except e (Option a) → Bool
  | .ok (some _) => true
  | _ => false

/-- C3: the fast `fsolve` candidate is accepted only when the recomputed
volume error is below `0.01 * volume_desejado` (otherwise the solve falls
back to `brentq` on the conservative breadth/depth interval), and
consequently every waterline solve that returns a converged tuple has its
recomputed volume within one percent of the target (given that `brentq`,
when it succeeds, returns an exact root of the volume residual). -/
theorem c3_tolerancia_volume
    (brentqO : (Q → Option Q) → Q → Q → Option Q)
    (fsolveO : (Q → Option Q) → Q → Q) (trig : Trig)
    (fsolveZc : (Q → Except String Q) → Q → Q × ℕ)
    (brentqZc : (Q → Except String Q) → Q → Q → Option (Q × ℕ))
    (balizas : List BalizaCC) (volumeDesejado theta zcChute bocaMax pontalMax : Q)
    (hV : 0 < volumeDesejado.val)
    (hbr : ∀ a b c, brentqZc
        (objetivoZc brentqO fsolveO trig balizas volumeDesejado theta) a b = some c →
      ∃ z, objetivoZc brentqO fsolveO trig balizas volumeDesejado theta c.1
          = Except.ok z ∧ z.val = 0)
    (zcs ycb zcb vol : Q) (iter : ℕ)
    (hok : encontrarZcParaVolume brentqO fsolveO trig fsolveZc brentqZc balizas
        volumeDesejado theta zcChute bocaMax pontalMax
      = Except.ok (some (zcs, ycb, zcb, vol, iter))) :
    (encontrarZcTentativaFsolve brentqO fsolveO trig fsolveZc balizas
        volumeDesejado theta zcChute = none →
      ∃ c, brentqZc (objetivoZc brentqO fsolveO trig balizas volumeDesejado theta)
          (-(⟨1, 2, by norm_num⟩ : Q) * bocaMax * Q.qabs (trig.tan theta) - 1)
          ((⟨1, 2, by norm_num⟩ : Q) * bocaMax * Q.qabs (trig.tan theta) + pontalMax + 1)
        = some c ∧ zcs = c.1)
    ∧ |vol.val - volumeDesejado.val| ≤ volumeDesejado.val / 100 := by
  unfold encontrarZcParaVolume at hok
  dsimp only at hok
  cases hfast : encontrarZcTentativaFsolve brentqO fsolveO trig fsolveZc balizas
      volumeDesejado theta zcChute with
  | some c =>
    rw [hfast] at hok
    dsimp only at hok
    have hacc : ∃ errf, objetivoZc brentqO fsolveO trig balizas volumeDesejado theta c.1
        = Except.ok errf
        ∧ Q.qabs errf < (⟨1, 100, by norm_num⟩ : Q) * volumeDesejado := by
      unfold encontrarZcTentativaFsolve at hfast
      dsimp only at hfast
      cases h0 : objetivoZc brentqO fsolveO trig balizas volumeDesejado theta zcChute with
      | error e => rw [h0] at hfast; cases hfast
      | ok w0 =>
        rw [h0] at hfast
        dsimp only at hfast
        cases h1 : objetivoZc brentqO fsolveO trig balizas volumeDesejado theta
            (fsolveZc (objetivoZc brentqO fsolveO trig balizas volumeDesejado theta)
              zcChute).1 with
        | error e => rw [h1] at hfast; cases hfast
        | ok errf =>
          rw [h1] at hfast
          dsimp only at hfast
          by_cases hcond : Q.qabs errf < (⟨1, 100, by norm_num⟩ : Q) * volumeDesejado
          · rw [if_pos hcond] at hfast
            cases hfast
            exact ⟨errf, h1, hcond⟩
          · rw [if_neg hcond] at hfast
            cases hfast
    rcases hacc with ⟨errf, herr, hcond⟩
    unfold encontrarZcFinaliza at hok
    cases hp : calcularPropriedadesParaZc brentqO fsolveO trig balizas c.1 theta with
    | error e =>
        rw [hp] at hok
        cases hok
    | ok p =>
      rw [hp] at hok
      rcases p with ⟨v1, my1, mz1⟩
      dsimp only at hok
      have hinj := Except.ok.inj hok
      have hinj2 := Option.some.inj hinj
      have hvol : vol = v1 := by
        have := congrArg (fun t => t.2.2.2.1) hinj2
        exact this.symm
      have hzcs : zcs = c.1 := by
        have := congrArg (fun t => t.1) hinj2
        exact this.symm
      have herrf : errf = v1 - volumeDesejado := by
        unfold objetivoZc at herr
        rw [hp] at herr
        have := Except.ok.inj herr
        exact this.symm
      constructor
      · intro hnone
        cases hnone
      · have hv := (Q.lt_iff_val _ _).mp hcond
        rw [Q.val_qabs, Q.val_mul] at hv
        have h100 : ((⟨1, 100, by norm_num⟩ : Q)).val = 1/100 := by
          show ((1 : ℤ) : ℚ) / ((100 : ℤ) : ℚ) = 1/100
          norm_num
        rw [h100, herrf, Q.val_sub] at hv
        rw [hvol]
        linarith [abs_nonneg (v1.val - volumeDesejado.val)]
  | none =>
    rw [hfast] at hok
    dsimp only at hok
    cases hlo : objetivoZc brentqO fsolveO trig balizas volumeDesejado theta
        (-(⟨1, 2, by norm_num⟩ : Q) * bocaMax * Q.qabs (trig.tan theta) - 1) with
    | error e => rw [hlo] at hok; cases hok
    | ok wlo =>
      rw [hlo] at hok
      cases hhi : objetivoZc brentqO fsolveO trig balizas volumeDesejado theta
          ((⟨1, 2, by norm_num⟩ : Q) * bocaMax * Q.qabs (trig.tan theta) + pontalMax + 1) with
      | error e => rw [hhi] at hok; cases hok
      | ok whi =>
        rw [hhi] at hok
        dsimp only at hok
        cases hbq : brentqZc (objetivoZc brentqO fsolveO trig balizas volumeDesejado theta)
            (-(⟨1, 2, by norm_num⟩ : Q) * bocaMax * Q.qabs (trig.tan theta) - 1)
            ((⟨1, 2, by norm_num⟩ : Q) * bocaMax * Q.qabs (trig.tan theta) + pontalMax + 1) with
        | none => rw [hbq] at hok; cases hok
        | some c =>
          rw [hbq] at hok
          dsimp only at hok
          rcases hbr _ _ _ hbq with ⟨z, hz, hzv⟩
          unfold encontrarZcFinaliza at hok
          cases hp : calcularPropriedadesParaZc brentqO fsolveO trig balizas c.1 theta with
          | error e => rw [hp] at hok; cases hok
          | ok p =>
            rw [hp] at hok
            rcases p with ⟨v1, my1, mz1⟩
            dsimp only at hok
            have hinj2 := Option.some.inj (Except.ok.inj hok)
            have hvol : vol = v1 := (congrArg (fun t => t.2.2.2.1) hinj2).symm
            have hzcs : zcs = c.1 := (congrArg (fun t => t.1) hinj2).symm
            have hzeq : z = v1 - volumeDesejado := by
              unfold objetivoZc at hz
              rw [hp] at hz
              exact (Except.ok.inj hz).symm
            have hveq : v1.val = volumeDesejado.val := by
              rw [hzeq, Q.val_sub] at hzv
              linarith
            refine ⟨fun _ => ⟨c, rfl, hzcs⟩, ?_⟩
            rw [hvol, hveq]
            simp
            positivity

/-- Witness for C3: concrete solve on the two-station box hull. -/
theorem c3_tolerancia_volume_witness :
    ∃ r : Q × Q × Q × Q × ℕ,
      encontrarZcParaVolume secanteO fsQW trigC5 (fun _ x0 => (x0, 1)) (fun _ _ _ => none)
        balizasC5 (⟨2, 1000, by norm_num⟩ : Q) 45 (⟨2, 1000, by norm_num⟩ : Q)
        (⟨2, 1000, by norm_num⟩ : Q) (⟨4, 1000, by norm_num⟩ : Q)
      = Except.ok (some r)
      ∧ |r.2.2.2.1.val - (⟨2, 1000, by norm_num⟩ : Q).val|
        ≤ (⟨2, 1000, by norm_num⟩ : Q).val / 100 := by
  cases hE : encontrarZcParaVolume secanteO fsQW trigC5 (fun _ x0 => (x0, 1))
      (fun _ _ _ => none) balizasC5 (⟨2, 1000, by norm_num⟩ : Q) 45
      (⟨2, 1000, by norm_num⟩ : Q) (⟨2, 1000, by norm_num⟩ : Q)
      (⟨4, 1000, by norm_num⟩ : Q) with
  | error e =>
      have hok : isOkSomeE (encontrarZcParaVolume secanteO fsQW trigC5 (fun _ x0 => (x0, 1))
          (fun _ _ _ => none) balizasC5 (⟨2, 1000, by norm_num⟩ : Q) 45
          (⟨2, 1000, by norm_num⟩ : Q) (⟨2, 1000, by norm_num⟩ : Q)
          (⟨4, 1000, by norm_num⟩ : Q)) = true := by decide
      rw [hE] at hok
      cases hok
  | ok o =>
    cases o with
    | none =>
        have hok : isOkSomeE (encontrarZcParaVolume secanteO fsQW trigC5 (fun _ x0 => (x0, 1))
            (fun _ _ _ => none) balizasC5 (⟨2, 1000, by norm_num⟩ : Q) 45
            (⟨2, 1000, by norm_num⟩ : Q) (⟨2, 1000, by norm_num⟩ : Q)
            (⟨4, 1000, by norm_num⟩ : Q)) = true := by decide
        rw [hE] at hok
        cases hok
    | some r =>
      rcases r with ⟨zcs, ycb, zcb, vol, iter⟩
      refine ⟨(zcs, ycb, zcb, vol, iter), rfl, ?_⟩
      refine (c3_tolerancia_volume secanteO fsQW trigC5 (fun _ x0 => (x0, 1))
        (fun _ _ _ => none) balizasC5 (⟨2, 1000, by norm_num⟩ : Q) 45
        (⟨2, 1000, by norm_num⟩ : Q) (⟨2, 1000, by norm_num⟩ : Q)
        (⟨4, 1000, by norm_num⟩ : Q) ?_ ?_ zcs ycb zcb vol iter hE).2
      · show (0:ℚ) < ((2:ℤ):ℚ)/((1000:ℤ):ℚ)
        norm_num
      · intro a b c hc
        exact Option.noConfusion hc

/-- C4: when the fast solve was rejected (or raised) and the bracketed
fallback also fails, the waterline solver returns the NaN sentinel
(`none`) instead of raising; the grid point then carries `KN = none`,
and sibling grid points are computed exactly as they would be alone:
the grid is a pointwise map, so a failing point never aborts the batch. -/
theorem c4_nan_sentinela (env : KnEnv) (deslocamento theta : Q)
    (hguard : ¬ (deslocamento / env.densidade < (⟨1, 1000, by norm_num⟩ : Q)
      ∨ Q.qabs theta < (⟨1, 1000, by norm_num⟩ : Q)))
    (hfast : encontrarZcTentativaFsolve env.brentqO env.fsolveO env.trig env.fsolveZc
      env.balizas (deslocamento / env.densidade) theta (env.chuteZc deslocamento) = none)
    (hbq : ∀ a b, env.brentqZc
      (objetivoZc env.brentqO env.fsolveO env.trig env.balizas
        (deslocamento / env.densidade) theta) a b = none) :
    encontrarZcParaVolume env.brentqO env.fsolveO env.trig env.fsolveZc env.brentqZc
      env.balizas (deslocamento / env.densidade) theta (env.chuteZc deslocamento)
      env.bocaMax env.pontalMax = Except.ok none
    ∧ calcularKnParaPonto env deslocamento theta = Except.ok none
    ∧ ∀ xs ys : List (Q × Q),
        calcularCurvasKn env (xs ++ (deslocamento, theta) :: ys)
          = calcularCurvasKn env xs
            ++ (deslocamento, theta, Except.ok none) :: calcularCurvasKn env ys := by
  have hzc : encontrarZcParaVolume env.brentqO env.fsolveO env.trig env.fsolveZc env.brentqZc
      env.balizas (deslocamento / env.densidade) theta (env.chuteZc deslocamento)
      env.bocaMax env.pontalMax = Except.ok none := by
    unfold encontrarZcParaVolume
    rw [hfast]
    dsimp only
    cases hlo : objetivoZc env.brentqO env.fsolveO env.trig env.balizas
        (deslocamento / env.densidade) theta
        (-(⟨1, 2, by norm_num⟩ : Q) * env.bocaMax * Q.qabs (env.trig.tan theta) - 1) with
    | error e => rfl
    | ok wlo =>
      cases hhi : objetivoZc env.brentqO env.fsolveO env.trig env.balizas
          (deslocamento / env.densidade) theta
          ((⟨1, 2, by norm_num⟩ : Q) * env.bocaMax * Q.qabs (env.trig.tan theta)
            + env.pontalMax + 1) with
      | error e => rfl
      | ok whi =>
        rw [hbq]
  have hkn : calcularKnParaPonto env deslocamento theta = Except.ok none := by
    unfold calcularKnParaPonto
    rw [if_neg hguard]
    dsimp only
    rw [hzc]
  refine ⟨hzc, hkn, ?_⟩
  intro xs ys
  unfold calcularCurvasKn
  rw [List.map_append, List.map_cons]
  unfold calcularKnWorker
  rw [hkn]

/-- C5/C4 environment with a bad initial guess (waterline far above the
deck), so the fast solve is rejected and the fallback `brentq` fails. -/
def envC4 : KnEnv := { envC5 with chuteZc := fun _ => 100 }

/-- Witness for C4: the failing grid point `(0.002 t, 45°)` yields the
sentinel, and its siblings in a concrete task list are untouched. -/
theorem c4_nan_sentinela_witness :
    encontrarZcParaVolume envC4.brentqO envC4.fsolveO envC4.trig envC4.fsolveZc
      envC4.brentqZc envC4.balizas ((⟨2, 1000, by norm_num⟩ : Q) / envC4.densidade) 45
      (envC4.chuteZc (⟨2, 1000, by norm_num⟩ : Q)) envC4.bocaMax envC4.pontalMax
      = Except.ok none
    ∧ calcularKnParaPonto envC4 (⟨2, 1000, by norm_num⟩ : Q) 45 = Except.ok none
    ∧ calcularCurvasKn envC4 ([(0, 45)] ++ ((⟨2, 1000, by norm_num⟩ : Q), 45) :: [])
        = calcularCurvasKn envC4 [(0, 45)]
          ++ ((⟨2, 1000, by norm_num⟩ : Q), 45, Except.ok none) :: calcularCurvasKn envC4 [] := by
  have h := c4_nan_sentinela envC4 (⟨2, 1000, by norm_num⟩ : Q) 45
    (by decide) (by decide) (fun a b => rfl)
  exact ⟨h.1, h.2.1, h.2.2 [(0, 45)] []⟩

/-- Realistic `brentq` oracle: raises (`none`) when an endpoint sample is
NaN, otherwise refines by the secant rule (exact on affine brackets). -/
def brNanW : (Q → Option Q) → Q → Q → Option Q := fun g a b =>
  if (g a).isNone || (g b).isNone then none else secanteO g a b

/-- A difference function with a NaN (out-of-domain) region below `1/4`
and a genuine sign change at `1/2`, as produced by a PCHIP interpolant
with `extrapolate=False`. -/
def fNanW : Q → Option Q :=
  fun z => if z < (⟨1, 4, by norm_num⟩ : Q) then none else some (z - ⟨1, 2, by norm_num⟩)

def rootsOf : Except String (List Q) → List Q
  | .ok l => l
  | .error _ => []

def qlistBeq : List Q → List Q → Bool
  | [], [] => true
  | a :: as, b :: bs => Q.beq a b && qlistBeq as bs
  | _, _ => false

theorem qlistBeq_val : ∀ {l1 l2 : List Q}, qlistBeq l1 l2 = true →
    l1.map Q.val = l2.map Q.val
  | [], [], _ => rfl
  | a :: as, b :: bs, h => by
      have hab : Q.beq a b = true := by
        have := h
        unfold qlistBeq at this
        exact (Bool.and_eq_true _ _).mp this |>.1
      have hrest : qlistBeq as bs = true := by
        have := h
        unfold qlistBeq at this
        exact (Bool.and_eq_true _ _).mp this |>.2
      simp only [List.map_cons]
      rw [Q.val_eq_of_beq hab, qlistBeq_val hrest]
  | [], _ :: _, h => by cases h
  | _ :: _, [], h => by cases h

/-- C7 (code bug, `cc.py` lines 87-100): when `brentq` fails on a bracket
(here: NaN samples from an out-of-domain interpolant region), the
`fsolve` fallback result — a numpy array appended without `[0]` — makes
the final `sorted(list(set(raizes)))` raise `TypeError` (arrays are
unhashable), aborting the whole search instead of skipping the bracket;
the same function restricted to its well-defined part returns its root
normally. -/
theorem c7_raizes_typeerror_aborta :
    encontrarRaizes brNanW fsQW fNanW 0 1 101
        = Except.error "TypeError: unhashable numpy.ndarray"
    ∧ (∃ l, encontrarRaizes brNanW fsQW
          (fun z => some (z - ⟨1, 2, by norm_num⟩)) 0 1 101 = Except.ok l
        ∧ l.map Q.val = [(⟨1, 2, by norm_num⟩ : Q).val]) := by
  constructor
  · decide
  · cases hE : encontrarRaizes brNanW fsQW
        (fun z => some (z - ⟨1, 2, by norm_num⟩)) 0 1 101 with
    | error e =>
        have hok : isOkE (encontrarRaizes brNanW fsQW
            (fun z => some (z - ⟨1, 2, by norm_num⟩)) 0 1 101) = true := by decide
        rw [hE] at hok
        cases hok
    | ok l =>
        refine ⟨l, rfl, ?_⟩
        have hb : qlistBeq (rootsOf (encontrarRaizes brNanW fsQW
            (fun z => some (z - ⟨1, 2, by norm_num⟩)) 0 1 101))
            [⟨1, 2, by norm_num⟩] = true := by decide
        rw [hE] at hb
        exact qlistBeq_val hb

theorem trapSum_val_zero (g : Q → Q) (hg : ∀ x, (g x).val = 0) :
    ∀ pts : List Q, (trapSum g pts).val = 0
  | [] => by simp [trapSum, Q.val_zero]
  | [_] => by simp [trapSum, Q.val_zero]
  | x :: y :: rest => by
      show ((y - x) * (g x + g y) / 2 + trapSum g (y :: rest)).val = 0
      rw [Q.val_add, Q.val_div, Q.val_mul, Q.val_add, hg, hg,
        trapSum_val_zero g hg (y :: rest)]
      ring

/-- C10: the numerical integration routine is NaN-safe: its value on any
integrand equals its value on that integrand with every NaN sample
replaced by `0` (the `np.nan_to_num` step), and an integrand whose
samples are all NaN-or-zero — for instance a PCHIP interpolant queried
entirely outside its domain — contributes exactly zero. -/
theorem c10_integrar_nan_seguro (f : Q → Option Q) (a b : Q) :
    integrar f a b = integrar (fun z => some ((f z).getD 0)) a b
    ∧ ((∀ z : Q, ((f z).getD 0).val = 0) → (integrar f a b).val = 0) := by
  constructor
  · rfl
  · intro hz
    by_cases hba : b ≤ a
    · simp [integrar, hba, Q.val_zero]
    · by_cases hlen :
          (arangeQ a milesimo (arangeCount a (b + milesimo / 2) milesimo)).length < 2
      · simp [integrar, hba, hlen, Q.val_zero]
      · have heq : integrar f a b
            = trapSum (nanToNum f)
                (arangeQ a milesimo (arangeCount a (b + milesimo / 2) milesimo)) := by
          simp [integrar, hba, hlen]
        rw [heq]
        exact trapSum_val_zero (nanToNum f) hz _

/-- Witness for C10 at a fully out-of-domain (all-NaN) integrand. -/
theorem c10_integrar_nan_seguro_witness :
    integrar (fun _ => none) 0 1 = integrar (fun z => some (((none : Option Q)).getD 0)) 0 1
    ∧ (integrar (fun _ => none) 0 1).val = 0 := by
  have h := c10_integrar_nan_seguro (fun _ => none) 0 1
  exact ⟨h.1, h.2 (fun z => Q.val_zero)⟩

/-!
Embedding of `src/io/file_handler.py::processar_dados_balizas` and of
`src/core/ch.py` (class `InterpoladorCasco` and the flat-waterline class
`PropriedadesHidrostaticas`), for the linear interpolation method.
Interpolant objects are represented by their anchor lists, with
`interpLin` giving the `scipy.interpolate.interp1d(kind="linear",
bounds_error=False, fill_value=0.0)` evaluation.
-/

structure Cota where
  x : Q
  y : Q
  z : Q

/-- Piecewise-linear interpolation through sorted anchors, `0` outside
the anchor span (`fill_value=0.0`). -/
def interpLin : List (Q × Q) → Q → Q
  | [], _ => 0
  | [_], _ => 0
  | p :: v :: rest, t =>
      if t < p.1 then 0
      else if t ≤ v.1 then p.2 + (t - p.1) * ((v.2 - p.2) / (v.1 - p.1))
      else interpLin (v :: rest) t

/-- Stable insertion by longitudinal position (`sort_values('x')`). -/
def insertByX (c : Cota) : List Cota → List Cota
  | [] => [c]
  | d :: ds => if c.x < d.x then c :: d :: ds else d :: insertByX c ds

def sortByX (l : List Cota) : List Cota := l.foldr insertByX []

def insertByZ (c : Cota) : List Cota → List Cota
  | [] => [c]
  | d :: ds => if c.z < d.z then c :: d :: ds else d :: insertByZ c ds

def sortByZ (l : List Cota) : List Cota := l.foldr insertByZ []

/-- Python `round(·, 4)` (round half to even) on an exact rational. -/
def roundHalfEven4 (q : Q) : Q :=
  let s : Q := q * 10000
  let f : ℤ := s.n / s.d
  let r : Q := s - Q.ofInt f
  let k : ℤ :=
    if r < (⟨1, 2, by norm_num⟩ : Q) then f
    else if (⟨1, 2, by norm_num⟩ : Q) < r then f + 1
    else if f % 2 = 0 then f else f + 1
  ⟨k, 10000, by norm_num⟩

def roundCota (c : Cota) : Cota :=
  ⟨roundHalfEven4 c.x, roundHalfEven4 c.y, roundHalfEven4 c.z⟩

def cotaBeq (c d : Cota) : Bool := Q.beq c.x d.x && Q.beq c.y d.y && Q.beq c.z d.z

def dedupCotasAux : List Cota → List Cota → List Cota
  | _, [] => []
  | seen, c :: cs =>
      if seen.any (fun d => cotaBeq d c) then dedupCotasAux seen cs
      else c :: dedupCotasAux (c :: seen) cs

/-- `drop_duplicates(subset=['x','y','z'], keep='first')`. -/
def dedupCotas (l : List Cota) : List Cota := dedupCotasAux [] l

/-- Steps 1-3 of `processar_dados_balizas`: sort by `x`, optionally shift
to midship reference, round to 4 decimals, drop duplicate rows. -/
def limparTabela (tabela : List Cota) (lpp : Q) (meioNavio : Bool) : List Cota :=
  let df1 := sortByX tabela
  let df2 := if meioNavio then df1.map (fun c => ⟨c.x - lpp / 2, c.y, c.z⟩) else df1
  dedupCotas (df2.map roundCota)

def distinctX (tabela : List Cota) : List Q := dedupSort (tabela.map (·.x))

def contagemX (tabela : List Cota) (xv : Q) : ℕ :=
  (tabela.filter (fun c => Q.beq c.x xv)).length

/-- The stations flagged by step 4 of `processar_dados_balizas`: fewer
than 2 points and not the extreme (first/last) station. -/
def estacoesProblematicas (tabela : List Cota) : List Q :=
  let xs := distinctX tabela
  let xmin := listMin xs
  let xmax := listMax xs
  xs.filter (fun xv =>
    decide (contagemX tabela xv < 2) && !Q.beq xv xmin && !Q.beq xv xmax)

/-- Embeds `FileHandler.processar_dados_balizas`: cleaning followed by
the interior-station validation, which raises `ValueError` when an
intermediate station has a single point. -/
def processarDadosBalizas (tabela : List Cota) (lpp : Q) (meioNavio : Bool) :
    Except String (List Cota) :=
  let df := limparTabela tabela lpp meioNavio
  if 1 < (distinctX df).length then
    if estacoesProblematicas df ≠ [] then
      .error "Erro Critico: estacoes intermediarias possuem apenas 1 ponto"
    else .ok df
  else .ok df

/-- A hull as `InterpoladorCasco` builds it: station positions, per-station
half-breadth anchors for the stations having at least two points, and the
keel-profile anchors. -/
structure CascoH where
  posicoes : List Q
  funcoes : List (Q × List (Q × Q))
  perfil : List (Q × Q)

/-- Embeds `InterpoladorCasco._gerar_interpoladores_secao`: stations with
fewer than two offset points are silently skipped. -/
def gerarInterpoladoresSecao (tabela : List Cota) : List (Q × List (Q × Q)) :=
  (dedupSort (tabela.map (·.x))).filterMap (fun xv =>
    let anchors := (sortByZ (tabela.filter (fun c => Q.beq c.x xv))).map
      (fun c => (c.z, c.y))
    if 2 ≤ anchors.length then some (xv, anchors) else none)

/-- Embeds `InterpoladorCasco._gerar_interpolador_perfil` (minimum height
per station). -/
def gerarInterpoladorPerfil (tabela : List Cota) : List (Q × Q) :=
  (dedupSort (tabela.map (·.x))).map (fun xv =>
    (xv, listMin ((tabela.filter (fun c => Q.beq c.x xv)).map (·.z))))

/-- Embeds `InterpoladorCasco.__init__`, which has no failure path: the
`Except` layer records that construction always succeeds. -/
def construirCasco (tabela : List Cota) : Except String CascoH :=
  .ok ⟨dedupSort (tabela.map (·.x)), gerarInterpoladoresSecao tabela,
       gerarInterpoladorPerfil tabela⟩

/-- An offset table whose interior station `x = 5` has a single point,
while the boundary stations `x = 0` and `x = 10` have two points each. -/
def tabelaInteriorDeficiente : List Cota :=
  [⟨0, 1, 0⟩, ⟨0, 1, 2⟩, ⟨5, 1, 0⟩, ⟨10, 1, 0⟩, ⟨10, 1, 2⟩]

/-- C6 counterexample: handing `InterpoladorCasco` an offset table with an
interior single-point station does NOT abort construction with any error;
construction succeeds and the deficient station `x = 5` is silently
dropped from the section interpolators (it remains listed among the
station positions). The `fewer than 2 points` validation lives in
`FileHandler.processar_dados_balizas` and raises `ValueError`, not a
`GeometryError` during construction. -/
theorem c6_interior_station_no_error :
    ∃ c : CascoH, construirCasco tabelaInteriorDeficiente = Except.ok c
      ∧ (c.funcoes.map Prod.fst).map Q.val = [(0 : ℚ), 10]
      ∧ c.posicoes.map Q.val = [(0 : ℚ), 5, 10] := by
  refine ⟨_, rfl, ?_, ?_⟩
  · have h : qlistBeq ((gerarInterpoladoresSecao tabelaInteriorDeficiente).map Prod.fst)
        [(0 : Q), 10] = true := by decide
    have h2 := qlistBeq_val h
    have h3 : ([(0 : Q), 10]).map Q.val = [(0 : ℚ), 10] := by
      show [Q.val 0, Q.val 10] = _
      rw [Q.val_ofNat, Q.val_ofNat]; norm_num
    simpa using h2.trans h3
  · have h : qlistBeq (dedupSort (tabelaInteriorDeficiente.map (·.x)))
        [(0 : Q), 5, 10] = true := by decide
    have h2 := qlistBeq_val h
    have h3 : ([(0 : Q), 5, 10]).map Q.val = [(0 : ℚ), 5, 10] := by
      show [Q.val 0, Q.val 5, Q.val 10] = _
      rw [Q.val_ofNat, Q.val_ofNat, Q.val_ofNat]; norm_num
    simpa using h2.trans h3

/-- C6 amended: `InterpoladorCasco` itself never fails — it silently skips
stations with fewer than 2 points. The interior-station validation is
performed beforehand by `FileHandler.processar_dados_balizas`, which
raises `ValueError` exactly when the cleaned table has more than one
station and some non-boundary station has fewer than 2 points; boundary
(first/last) single-point stations are permitted. -/
theorem c6_validacao_estacoes (tabela : List Cota) (lpp : Q) (mn : Bool) :
    ((∃ msg, processarDadosBalizas tabela lpp mn = Except.error msg)
        ↔ 1 < (distinctX (limparTabela tabela lpp mn)).length
          ∧ estacoesProblematicas (limparTabela tabela lpp mn) ≠ [])
      ∧ ∃ c, construirCasco (limparTabela tabela lpp mn) = Except.ok c := by
  refine ⟨⟨?_, ?_⟩, ⟨_, rfl⟩⟩
  · rintro ⟨msg, h⟩
    by_cases h1 : 1 < (distinctX (limparTabela tabela lpp mn)).length
    · by_cases h2 : estacoesProblematicas (limparTabela tabela lpp mn) ≠ []
      · exact ⟨h1, h2⟩
      · simp [processarDadosBalizas, h1, h2] at h
    · simp [processarDadosBalizas, h1] at h
  · rintro ⟨h1, h2⟩
    exact ⟨"Erro Critico: estacoes intermediarias possuem apenas 1 ponto",
      by simp [processarDadosBalizas, h1, h2]⟩

/-!
Embedding of `src/core/eed.py::calcular_hidrostaticas_condicoes` (the
iterative trim/sinkage loop for one loading condition). The hydrostatic
model evaluated at a draft pair (`PropriedadesTrim` +
`PropriedadesHidrostaticas`) is abstracted as an oracle
`hidro : Q → Q → HidroIter`.
-/

structure HidroIter where
  deslocamento : Q
  lcb : Q
  mtc : Q
  lcf : Q
  tpc : Q
deriving DecidableEq

/-- `abs(erro_desloc) < tolerancia and abs(erro_lcg) < tolerancia` with
`erro_desloc = (desloc_calc - desloc_alvo)/desloc_alvo`,
`erro_lcg = (lcb_calc - lcg_alvo)/lpp`, `tolerancia = 1e-4`. -/
def convergiu (alvo lcg lpp : Q) (h : HidroIter) : Bool :=
  decide (Q.qabs ((h.deslocamento - alvo) / alvo) < (⟨1, 10000, by norm_num⟩ : Q))
    && decide (Q.qabs ((h.lcb - lcg) / lpp) < (⟨1, 10000, by norm_num⟩ : Q))

/-- One draft adjustment: trim `desloc_alvo*(lcg_alvo - lcb)/(mtc*100)`
distributed about the LCF (`lcf/lpp` aft, `1 - lcf/lpp` forward), plus the
mean-draft correction `(desloc_alvo - desloc_calc)/(tpc*100)`; the Python
truthiness guards `if mtc_calc`, `if lpp`, `if tpc_iter` become
zero-tests. -/
def passoCalado (hidro : Q → Q → HidroIter) (alvo lcg lpp : Q) (p : Q × Q) : Q × Q :=
  let h := hidro p.1 p.2
  let momento := alvo * (lcg - h.lcb)
  let trim := if Q.beq h.mtc 0 then 0 else momento / (h.mtc * 100)
  let frac := if Q.beq lpp 0 then (⟨1, 2, by norm_num⟩ : Q) else h.lcf / lpp
  let corr := if Q.beq h.tpc 0 then 0 else (alvo - h.deslocamento) / (h.tpc * 100)
  (p.1 - trim * frac + corr, p.2 + trim * (1 - frac) + corr)

/-- The `for i in range(max_iteracoes)` loop: on convergence the current
drafts and hydrostatics are stored (`some`), and when the fuel runs out
the `for`-`else` branch only prints a warning — nothing is stored
(`none`). -/
def loopHidro (hidro : Q → Q → HidroIter) (alvo lcg lpp : Q) :
    ℕ → Q × Q → Option (Q × Q × HidroIter)
  | 0, _ => none
  | n + 1, p =>
      if convergiu alvo lcg lpp (hidro p.1 p.2) then some (p.1, p.2, hidro p.1 p.2)
      else loopHidro hidro alvo lcg lpp n (passoCalado hidro alvo lcg lpp p)

/-- `calado_estimado = (desloc_alvo/(desloc_leve + 100)) * (pontal*0.8)`. -/
def chuteInicialCalado (alvo dleve pontal : Q) : Q :=
  alvo / (dleve + 100) * (pontal * (⟨8, 10, by norm_num⟩ : Q))

/-- One loading condition of `calcular_hidrostaticas_condicoes`:
skip when the target displacement is below `1e-6`, otherwise run the
loop with `max_iteracoes = 100` from the level-trim initial guess. -/
def calcularHidrostaticasCondicao (hidro : Q → Q → HidroIter)
    (alvo lcg lpp pontal dleve : Q) : Option (Q × Q × HidroIter) :=
  if alvo < (⟨1, 1000000, by norm_num⟩ : Q) then none
  else
    let c0 := chuteInicialCalado alvo dleve pontal
    loopHidro hidro alvo lcg lpp 100 (c0, c0)

theorem loopHidro_some_iff (hidro : Q → Q → HidroIter) (alvo lcg lpp : Q)
    (n : ℕ) (p : Q × Q) (r : Q × Q × HidroIter) :
    loopHidro hidro alvo lcg lpp n p = some r
      ↔ ∃ k, k < n
          ∧ (∀ j, j < k →
              convergiu alvo lcg lpp
                (hidro ((passoCalado hidro alvo lcg lpp)^[j] p).1
                  ((passoCalado hidro alvo lcg lpp)^[j] p).2) = false)
          ∧ convergiu alvo lcg lpp
              (hidro ((passoCalado hidro alvo lcg lpp)^[k] p).1
                ((passoCalado hidro alvo lcg lpp)^[k] p).2) = true
          ∧ r = (((passoCalado hidro alvo lcg lpp)^[k] p).1,
                 ((passoCalado hidro alvo lcg lpp)^[k] p).2,
                 hidro ((passoCalado hidro alvo lcg lpp)^[k] p).1
                   ((passoCalado hidro alvo lcg lpp)^[k] p).2) := by
  induction n generalizing p with
  | zero => simp [loopHidro]
  | succ n ih =>
      by_cases hc : convergiu alvo lcg lpp (hidro p.1 p.2) = true
      · simp only [loopHidro, hc, if_true]
        constructor
        · intro h
          refine ⟨0, Nat.succ_pos n, fun j hj => absurd hj (Nat.not_lt_zero j), ?_, ?_⟩
          · simpa using hc
          · simpa using (Option.some_inj.mp h).symm
        · rintro ⟨k, hk, hprev, hck, hr⟩
          cases k with
          | zero => simp only [Function.iterate_zero, id] at hr; rw [hr]
          | succ k =>
              have h0 := hprev 0 (Nat.succ_pos k)
              simp only [Function.iterate_zero, id] at h0
              rw [hc] at h0
              exact absurd h0 (by simp)
      · have hc2 : convergiu alvo lcg lpp (hidro p.1 p.2) = false :=
          Bool.eq_false_iff.mpr hc
        simp only [loopHidro, hc2, Bool.false_eq_true, if_false]
        rw [ih (passoCalado hidro alvo lcg lpp p)]
        constructor
        · rintro ⟨k, hk, hprev, hck, hr⟩
          refine ⟨k + 1, Nat.succ_lt_succ hk, ?_, ?_, ?_⟩
          · intro j hj
            cases j with
            | zero => simpa using hc2
            | succ j =>
                have := hprev j (Nat.lt_of_succ_lt_succ hj)
                simpa [Function.iterate_succ_apply] using this
          · simpa [Function.iterate_succ_apply] using hck
          · simpa [Function.iterate_succ_apply] using hr
        · rintro ⟨k, hk, hprev, hck, hr⟩
          cases k with
          | zero =>
              simp only [Function.iterate_zero, id] at hck
              rw [hc2] at hck
              exact absurd hck (by simp)
          | succ k =>
              refine ⟨k, Nat.lt_of_succ_lt_succ hk, ?_, ?_, ?_⟩
              · intro j hj
                have := hprev (j + 1) (Nat.succ_lt_succ hj)
                simpa [Function.iterate_succ_apply] using this
              · simpa [Function.iterate_succ_apply] using hck
              · simpa [Function.iterate_succ_apply] using hr

/-- A hydrostatic oracle that never meets the tolerance: computed
displacement 4 t against any target, `lcb = 0`, `mtc = 1`, `lcf = 5`,
`tpc = 1`. -/
def hidroNaoConvergente : Q → Q → HidroIter := fun _ _ =>
  { deslocamento := 4, lcb := 0, mtc := 1, lcf := 5, tpc := 1 }

/-- C8 counterexample: with target displacement 2 t the relative
displacement error is permanently 100 percent, so the loop runs through
all 100 iterations and the `for`-`else` branch stores NOTHING for the
condition — the result is `none`, refuting that the last draft estimate
is kept as the result on hitting the iteration cap. -/
theorem c8_cap_sem_resultado :
    calcularHidrostaticasCondicao hidroNaoConvergente 2 0 10 3 40 = none := by
  decide

/-- C8 amended: the loop iterates at most 100 times from the level-trim
initial guess, applying per iteration the trim correction
`alvo*(lcg - lcb)/(mtc*100)` distributed about the LCF plus the
mean-draft correction `(alvo - desloc)/(tpc*100)` (`passoCalado`), and
stores a result exactly when some iteration `k < 100` meets both
relative-error tolerances (`convergiu`); when the cap is hit (or the
target displacement is below `1e-6`) nothing is stored. -/
theorem c8_convergencia_loop (hidro : Q → Q → HidroIter)
    (alvo lcg lpp pontal dleve : Q) (r : Q × Q × HidroIter) :
    calcularHidrostaticasCondicao hidro alvo lcg lpp pontal dleve = some r
      ↔ ¬ alvo < (⟨1, 1000000, by norm_num⟩ : Q)
        ∧ ∃ k, k < 100
            ∧ (∀ j, j < k →
                convergiu alvo lcg lpp
                  (hidro
                    ((passoCalado hidro alvo lcg lpp)^[j]
                      (chuteInicialCalado alvo dleve pontal,
                       chuteInicialCalado alvo dleve pontal)).1
                    ((passoCalado hidro alvo lcg lpp)^[j]
                      (chuteInicialCalado alvo dleve pontal,
                       chuteInicialCalado alvo dleve pontal)).2) = false)
            ∧ convergiu alvo lcg lpp
                (hidro
                  ((passoCalado hidro alvo lcg lpp)^[k]
                    (chuteInicialCalado alvo dleve pontal,
                     chuteInicialCalado alvo dleve pontal)).1
                  ((passoCalado hidro alvo lcg lpp)^[k]
                    (chuteInicialCalado alvo dleve pontal,
                     chuteInicialCalado alvo dleve pontal)).2) = true
            ∧ r = (((passoCalado hidro alvo lcg lpp)^[k]
                      (chuteInicialCalado alvo dleve pontal,
                       chuteInicialCalado alvo dleve pontal)).1,
                   ((passoCalado hidro alvo lcg lpp)^[k]
                      (chuteInicialCalado alvo dleve pontal,
                       chuteInicialCalado alvo dleve pontal)).2,
                   hidro
                     ((passoCalado hidro alvo lcg lpp)^[k]
                       (chuteInicialCalado alvo dleve pontal,
                        chuteInicialCalado alvo dleve pontal)).1
                     ((passoCalado hidro alvo lcg lpp)^[k]
                       (chuteInicialCalado alvo dleve pontal,
                        chuteInicialCalado alvo dleve pontal)).2) := by
  by_cases hg : alvo < (⟨1, 1000000, by norm_num⟩ : Q)
  · simp [calcularHidrostaticasCondicao, hg]
  · simp only [calcularHidrostaticasCondicao, hg, if_false]
    rw [loopHidro_some_iff]
    simp [hg]

/-!
Embedding of `src/core/ch.py::PropriedadesHidrostaticas` (flat waterline
at draft `calado`). Attributes become explicit data flow; `scipy.optimize.fsolve`
is an oracle `fsP : (Q → Q) → Q → Q` (root function and seed `x0` to the
returned scalar — fsolve returns the seed unchanged when it cannot make
progress, e.g. on a constant residual). `np.nan_to_num` around the linear
interpolators is the identity, since `interpLin` already fills `0`
outside its anchor span.
-/

/-- `_obter_meia_boca`: look up the station interpolator by key equality,
`0` when the station has none. -/
def obterMeiaBoca (casco : CascoH) (x z : Q) : Q :=
  match casco.funcoes.find? (fun p => Q.beq p.1 x) with
  | some p => interpLin p.2 z
  | none => 0

/-- `_calcular_dimensoes_linha_dagua`: seeds `fsolve` at the profile span
ends offset by `1e-6`, clamps out-of-range roots to the span ends, and
orders the pair. Returns `(x_re, x_vante)`; `(0, 0)` when the profile
interpolator was never built. -/
def calcularDimensoesLinhaDagua (fsP : (Q → Q) → Q → Q) (casco : CascoH)
    (calado : Q) : Q × Q :=
  if casco.perfil.length < 2 then (0, 0)
  else
    let xlo := listMin (casco.perfil.map Prod.fst)
    let xhi := listMax (casco.perfil.map Prod.fst)
    let funcaoRaiz : Q → Q := fun x => interpLin casco.perfil x - calado
    let xre0 := fsP funcaoRaiz (xlo + (⟨1, 1000000, by norm_num⟩ : Q))
    let xre := if xlo ≤ xre0 ∧ xre0 ≤ xhi then xre0 else xlo
    let xva0 := fsP funcaoRaiz (xhi - (⟨1, 1000000, by norm_num⟩ : Q))
    let xva := if xlo ≤ xva0 ∧ xva0 ≤ xhi then xva0 else xhi
    (qmin xre xva, qmax xre xva)

/-- `_calcular_area_secao`: twice the integral of the half-breadth from
the keel `z = 0` up to the draft. -/
def areaSecao (casco : CascoH) (calado x : Q) : Q :=
  integrar (fun z => some (obterMeiaBoca casco x z)) 0 calado * 2

def pairBeq (p q : Q × Q) : Bool := Q.beq p.1 q.1 && Q.beq p.2 q.2

def dedupPairsAux : List (Q × Q) → List (Q × Q) → List (Q × Q)
  | _, [] => []
  | seen, p :: ps =>
      if seen.any (fun q => pairBeq q p) then dedupPairsAux seen ps
      else p :: dedupPairsAux (p :: seen) ps

def insertPairLex (p : Q × Q) : List (Q × Q) → List (Q × Q)
  | [] => [p]
  | q :: qs =>
      if p.1 < q.1 ∨ (Q.beq p.1 q.1 ∧ p.2 ≤ q.2) then p :: q :: qs
      else q :: insertPairLex p qs

/-- `sorted(list(set(zip(xs, ys))))`: drop duplicate pairs, sort
lexicographically. -/
def pontosUnicos (l : List (Q × Q)) : List (Q × Q) :=
  (dedupPairsAux [] l).foldr insertPairLex []

/-- The `[x_re] + internos + [x_vante]` point lists shared by the AWP and
volume computations: interior stations strictly between the waterline
ends, end ordinates taken from the nearest physical station only within
the `1e-3` tolerance. -/
def pontosLinhaDagua (casco : CascoH) (xre xva : Q) (fval : Q → Q) :
    List (Q × Q) :=
  let internos := casco.posicoes.filter (fun x => decide (xre < x) && decide (x < xva))
  let popa := listMin casco.posicoes
  let proa := listMax casco.posicoes
  let yre := if Q.qabs (xre - popa) < milesimo then fval popa else 0
  let yva := if Q.qabs (xva - proa) < milesimo then fval proa else 0
  ((xre, yre) :: internos.map (fun x => (x, fval x))) ++ [(xva, yva)]

/-- `_calcular_area_plano_flutuacao`: waterline interpolator anchors and
twice the integrated half-area; `(0, none)` when fewer than 2 points. -/
def areaPlanoFlutuacao (casco : CascoH) (calado xre xva : Q) :
    Q × Option (List (Q × Q)) :=
  let pontos := pontosLinhaDagua casco xre xva (fun x => obterMeiaBoca casco x calado)
  if pontos.length < 2 then (0, none)
  else
    let u := pontosUnicos pontos
    (integrar (fun x => some (interpLin u x)) xre xva * 2, some u)

/-- `_calcular_volume_deslocamento`: integrates the sectional-area curve
(Bonjean) over the waterline span; returns
`(volume, deslocamento, anchors)`. -/
def volumeDeslocamento (casco : CascoH) (calado xre xva densidade : Q) :
    Q × Q × Option (List (Q × Q)) :=
  let pontos := pontosLinhaDagua casco xre xva (fun x => areaSecao casco calado x)
  if pontos.length < 2 then (0, 0, none)
  else
    let u := pontosUnicos pontos
    let vol := integrar (fun x => some (interpLin u x)) xre xva
    (vol, vol * densidade, some u)

/-- `_calcular_lcf`: first moment of the waterplane about `x = 0` divided
by its area; `0` under the `1e-6` area guard or without an interpolator. -/
def calcularLCF (awp : Q) (wlI : Option (List (Q × Q))) (xre xva : Q) : Q :=
  match wlI with
  | none => 0
  | some u =>
      if awp < (⟨1, 1000000, by norm_num⟩ : Q) then 0
      else integrar (fun x => some (x * (2 * interpLin u x))) xre xva / awp

/-- `_calcular_lcb`: analogous with the sectional-area curve and the
volume. -/
def calcularLCB (vol : Q) (areasI : Option (List (Q × Q))) (xre xva : Q) : Q :=
  match areasI with
  | none => 0
  | some u =>
      if vol < (⟨1, 1000000, by norm_num⟩ : Q) then 0
      else integrar (fun x => some (x * interpLin u x)) xre xva / vol

/-- `_calcular_momento_vertical_secao`: `∫ z * 2y(z) dz` from the keel to
the draft. -/
def momentoVerticalSecao (casco : CascoH) (calado x : Q) : Q :=
  integrar (fun z => some (z * (2 * obterMeiaBoca casco x z))) 0 calado

/-- `_calcular_vcb`: integrates the per-station vertical moments along
the waterline span and divides by the volume (`0` under the `1e-6`
guard). -/
def calcularVCB (casco : CascoH) (calado vol xre xva : Q) : Q :=
  if vol < (⟨1, 1000000, by norm_num⟩ : Q) then 0
  else
    let moms := casco.posicoes.map (fun x => (x, momentoVerticalSecao casco calado x))
    let u := moms.foldr insertPairLex []
    integrar (fun x => some (interpLin u x)) xre xva / vol

structure HidroProps where
  xre : Q
  xva : Q
  lwl : Q
  awp : Q
  volume : Q
  deslocamento : Q
  lcf : Q
  lcb : Q
  vcb : Q

/-- `_calcular_todas_propriedades` for a single flat draft (the subset of
attributes relevant here, computed in the source order). -/
def propriedadesHidrostaticas (fsP : (Q → Q) → Q → Q) (casco : CascoH)
    (calado densidade : Q) : HidroProps :=
  let d := calcularDimensoesLinhaDagua fsP casco calado
  let aw := areaPlanoFlutuacao casco calado d.1 d.2
  let lcf := calcularLCF aw.1 aw.2 d.1 d.2
  let vd := volumeDeslocamento casco calado d.1 d.2 densidade
  let lcb := calcularLCB vd.1 vd.2.2 d.1 d.2
  let vcb := calcularVCB casco calado vd.1 d.1 d.2
  { xre := d.1, xva := d.2, lwl := d.2 - d.1, awp := aw.1, volume := vd.1,
    deslocamento := vd.2.1, lcf := lcf, lcb := lcb, vcb := vcb }

/-- `fsolve` on a residual with no sign information (the flat-bottom
profile makes `perfil(x) - calado` constant): the solver returns its
seed. -/
def fsRetornaX0 : (Q → Q) → Q → Q := fun _ x0 => x0

/-- The rectangular box hull of the specification scenario: stations at
`x = 0` and `x = 10`, constant half-breadth `2` from the keel `z = 0` to
the depth `z = 2`. -/
def tabelaCaixa : List Cota := [⟨0, 2, 0⟩, ⟨0, 2, 2⟩, ⟨10, 2, 0⟩, ⟨10, 2, 2⟩]

def cascoCaixa : CascoH :=
  ⟨dedupSort (tabelaCaixa.map (·.x)), gerarInterpoladoresSecao tabelaCaixa,
   gerarInterpoladorPerfil tabelaCaixa⟩

def densidadeAgua : Q := ⟨1025, 1000, by norm_num⟩

/-! Exact values of linear interpolation and trapezoid sums of affine
integrands, used to evaluate the box-hull hydrostatics. -/

theorem interpLin_val_two (p1 p2 : Q × Q) (t : Q)
    (h1 : p1.1.val ≤ t.val) (h2 : t.val ≤ p2.1.val) :
    (interpLin [p1, p2] t).val
      = p1.2.val + (t.val - p1.1.val)
          * ((p2.2.val - p1.2.val) / (p2.1.val - p1.1.val)) := by
  have hn1 : ¬ t < p1.1 := fun hc => absurd ((Q.lt_iff_val t p1.1).mp hc) (not_lt.mpr h1)
  have hn2 : t ≤ p2.1 := (Q.le_iff_val t p2.1).mpr h2
  show (interpLin (p1 :: p2 :: []) t).val = _
  rw [interpLin, if_neg hn1, if_pos hn2, Q.val_add, Q.val_mul, Q.val_sub,
    Q.val_div, Q.val_sub, Q.val_sub]

theorem interpLin_val_above (p1 p2 : Q × Q) (t : Q)
    (h0 : p1.1.val ≤ p2.1.val) (h : p2.1.val < t.val) :
    (interpLin [p1, p2] t).val = 0 := by
  have hn1 : ¬ t < p1.1 := fun hc =>
    absurd ((Q.lt_iff_val t p1.1).mp hc) (not_lt.mpr (le_of_lt (lt_of_le_of_lt h0 h)))
  have hn2 : ¬ t ≤ p2.1 := fun hc =>
    absurd ((Q.le_iff_val t p2.1).mp hc) (not_le.mpr h)
  show (interpLin (p1 :: p2 :: []) t).val = 0
  rw [interpLin, if_neg hn1, if_neg hn2]
  exact Q.val_zero

theorem trapSum_val_affine (g : Q → Q) (p q : ℚ) :
    ∀ (pts : List Q) (v w : Q), pts.head? = some v → pts.getLast? = some w →
      (∀ y ∈ pts, (g y).val = p * y.val + q) →
      (trapSum g pts).val
        = (p * w.val ^ 2 / 2 + q * w.val) - (p * v.val ^ 2 / 2 + q * v.val)
  | [], v, w, hv, _, _ => by simp at hv
  | [x], v, w, hv, hw, _ => by
      rw [List.head?_cons, Option.some_inj] at hv
      rw [List.getLast?_singleton, Option.some_inj] at hw
      subst hv; subst hw
      show (0 : Q).val = _
      rw [Q.val_zero]
      ring
  | x :: y :: l, v, w, hv, hw, hall => by
      rw [List.head?_cons, Option.some_inj] at hv
      rw [List.getLast?_cons_cons] at hw
      subst hv
      have ih := trapSum_val_affine g p q (y :: l) y w List.head?_cons hw
        (fun z hz => hall z (List.mem_cons_of_mem x hz))
      show ((y - x) * (g x + g y) / 2 + trapSum g (y :: l)).val = _
      rw [Q.val_add, Q.val_div, Q.val_mul, Q.val_sub, Q.val_add, ih,
        hall x (by simp), hall y (by simp)]
      have h2 : (2 : Q).val = 2 := by
        have := Q.val_ofNat 2; simpa using this
      rw [h2]
      ring

theorem trapSum_val_append (g : Q → Q) :
    ∀ (pts : List Q) (w z : Q), pts.getLast? = some w →
      (trapSum g (pts ++ [z])).val
        = (trapSum g pts).val + (z.val - w.val) * ((g w).val + (g z).val) / 2
  | [], w, z, hw => by simp at hw
  | [x], w, z, hw => by
      rw [List.getLast?_singleton, Option.some_inj] at hw
      subst hw
      show ((z - x) * (g x + g z) / 2 + trapSum g [z]).val
        = (trapSum g [x]).val + (z.val - x.val) * ((g x).val + (g z).val) / 2
      have hz : trapSum g [z] = 0 := rfl
      have hw0 : trapSum g [x] = 0 := rfl
      rw [hz, hw0, Q.val_add, Q.val_zero, Q.val_div, Q.val_mul, Q.val_sub, Q.val_add]
      have h2 : (2 : Q).val = 2 := by
        have := Q.val_ofNat 2; simpa using this
      rw [h2]
      ring
  | x :: y :: l, w, z, hw => by
      rw [List.getLast?_cons_cons] at hw
      have ih := trapSum_val_append g (y :: l) w z hw
      show ((y - x) * (g x + g y) / 2 + trapSum g ((y :: l) ++ [z])).val
        = ((y - x) * (g x + g y) / 2 + trapSum g (y :: l)).val + _
      rw [Q.val_add, ih, Q.val_add]
      ring

theorem arangeQ_length (s h : Q) (n : ℕ) : (arangeQ s h n).length = n := by
  simp [arangeQ]

theorem arangeQ_succ (s h : Q) (m : ℕ) :
    arangeQ s h (m + 1) = arangeQ s h m ++ [s + Q.ofInt (m : ℤ) * h] := by
  unfold arangeQ
  rw [List.range_succ, List.map_append]
  rfl

theorem arangeQ_head? (s h : Q) (m : ℕ) :
    (arangeQ s h (m + 1)).head? = some (s + Q.ofInt ((0 : ℕ) : ℤ) * h) := by
  unfold arangeQ
  rw [List.range_succ_eq_map]
  rfl

theorem arangeQ_getLast? (s h : Q) (m : ℕ) :
    (arangeQ s h (m + 1)).getLast? = some (s + Q.ofInt (m : ℤ) * h) := by
  rw [arangeQ_succ]
  exact List.getLast?_concat _

/-- Exact value of `integrar` when every grid sample is affine in the
abscissa (grid of `m + 2` points). -/
theorem integrar_val_affine (f : Q → Option Q) (p q : ℚ) (a b : Q) (m : ℕ)
    (hba : ¬ b ≤ a)
    (hcount : arangeCount a (b + milesimo / 2) milesimo = m + 2)
    (hall : ∀ y ∈ arangeQ a milesimo (m + 2), (nanToNum f y).val = p * y.val + q) :
    (integrar f a b).val
      = (p * (a.val + ((m : ℚ) + 1) * (1/1000)) ^ 2 / 2
          + q * (a.val + ((m : ℚ) + 1) * (1/1000)))
        - (p * a.val ^ 2 / 2 + q * a.val) := by
  have hlen : ¬ (arangeQ a milesimo (arangeCount a (b + milesimo / 2) milesimo)).length < 2 := by
    rw [hcount, arangeQ_length]
    omega
  have heq : integrar f a b
      = trapSum (nanToNum f)
          (arangeQ a milesimo (arangeCount a (b + milesimo / 2) milesimo)) := by
    simp [integrar, hba, hlen]
  rw [heq, hcount]
  have hh : m + 2 = (m + 1) + 1 := rfl
  rw [hh]
  rw [trapSum_val_affine (nanToNum f) p q _ _ _ (arangeQ_head? a milesimo (m + 1))
    (arangeQ_getLast? a milesimo (m + 1)) (by rw [← hh]; exact hall)]
  have hv0 : (a + Q.ofInt ((0 : ℕ) : ℤ) * milesimo).val = a.val := by
    rw [Q.val_add, Q.val_mul, Q.val_ofInt]
    push_cast
    ring
  have hw0 : (a + Q.ofInt ((m + 1 : ℕ) : ℤ) * milesimo).val
      = a.val + ((m : ℚ) + 1) * (1/1000) := by
    rw [Q.val_add, Q.val_mul, Q.val_ofInt, milesimo_val]
    push_cast
    ring
  rw [hv0, hw0]

/-- Exact value of `integrar` when every grid sample except the final
half-step overshoot is affine, and the overshoot sample has value
`vlast`. -/
theorem integrar_val_affine_castoff (f : Q → Option Q) (p q vlast : ℚ) (a b : Q)
    (m : ℕ) (hba : ¬ b ≤ a)
    (hcount : arangeCount a (b + milesimo / 2) milesimo = m + 2)
    (hall : ∀ y ∈ arangeQ a milesimo (m + 1), (nanToNum f y).val = p * y.val + q)
    (hlast : (nanToNum f (a + Q.ofInt ((m + 1 : ℕ) : ℤ) * milesimo)).val = vlast) :
    (integrar f a b).val
      = ((p * (a.val + (m : ℚ) * (1/1000)) ^ 2 / 2
            + q * (a.val + (m : ℚ) * (1/1000)))
          - (p * a.val ^ 2 / 2 + q * a.val))
        + (1/1000) * ((p * (a.val + (m : ℚ) * (1/1000)) + q) + vlast) / 2 := by
  have hlen : ¬ (arangeQ a milesimo (arangeCount a (b + milesimo / 2) milesimo)).length < 2 := by
    rw [hcount, arangeQ_length]
    omega
  have heq : integrar f a b
      = trapSum (nanToNum f)
          (arangeQ a milesimo (arangeCount a (b + milesimo / 2) milesimo)) := by
    simp [integrar, hba, hlen]
  rw [heq, hcount]
  rw [show m + 2 = (m + 1) + 1 from rfl]
  rw [arangeQ_succ a milesimo (m + 1)]
  cases hm : m with
  | zero =>
      subst hm
      rw [trapSum_val_append (nanToNum f) _ _ _ (arangeQ_getLast? a milesimo 0)]
      rw [trapSum_val_affine (nanToNum f) p q _ _ _ (arangeQ_head? a milesimo 0)
        (arangeQ_getLast? a milesimo 0) hall]
      rw [hlast]
      have hwm : (a + Q.ofInt ((0 : ℕ) : ℤ) * milesimo) ∈ arangeQ a milesimo (0 + 1) := by
        unfold arangeQ
        exact List.mem_map.mpr ⟨0, List.mem_range.mpr (Nat.lt_succ_self 0), rfl⟩
      rw [hall _ hwm]
      have hv0 : (a + Q.ofInt ((0 : ℕ) : ℤ) * milesimo).val = a.val := by
        rw [Q.val_add, Q.val_mul, Q.val_ofInt]
        push_cast
        ring
      have hz0 : (a + Q.ofInt ((0 + 1 : ℕ) : ℤ) * milesimo).val
          = a.val + ((0 : ℚ) + 1) * (1/1000) := by
        rw [Q.val_add, Q.val_mul, Q.val_ofInt, milesimo_val]
        push_cast
        ring
      rw [hv0, hz0]
      push_cast
      ring
  | succ k =>
      subst hm
      rw [trapSum_val_append (nanToNum f) _ _ _ (arangeQ_getLast? a milesimo (k + 1))]
      rw [trapSum_val_affine (nanToNum f) p q _ _ _ (arangeQ_head? a milesimo (k + 1))
        (arangeQ_getLast? a milesimo (k + 1)) hall]
      rw [hlast]
      have hwm : (a + Q.ofInt ((k + 1 : ℕ) : ℤ) * milesimo) ∈ arangeQ a milesimo (k + 1 + 1) := by
        unfold arangeQ
        exact List.mem_map.mpr ⟨k + 1, List.mem_range.mpr (Nat.lt_succ_self (k + 1)), rfl⟩
      rw [hall _ hwm]
      have hv0 : (a + Q.ofInt ((0 : ℕ) : ℤ) * milesimo).val = a.val := by
        rw [Q.val_add, Q.val_mul, Q.val_ofInt]
        push_cast
        ring
      have hw0 : (a + Q.ofInt ((k + 1 : ℕ) : ℤ) * milesimo).val
          = a.val + ((k : ℚ) + 1) * (1/1000) := by
        rw [Q.val_add, Q.val_mul, Q.val_ofInt, milesimo_val]
        push_cast
        ring
      have hz0 : (a + Q.ofInt ((k + 1 + 1 : ℕ) : ℤ) * milesimo).val
          = a.val + ((k : ℚ) + 1 + 1) * (1/1000) := by
        rw [Q.val_add, Q.val_mul, Q.val_ofInt, milesimo_val]
        push_cast
        ring
      rw [hv0, hw0, hz0]
      push_cast
      ring

/-! Concrete evaluation of the box-hull scenario: draft `1`, density
`1.025`, `fsolve` oracle returning its seed (the residual
`perfil(x) - calado = -1` is constant, giving the solver no gradient).
The per-station integrals are kept as unevaluated terms and pinned down
only through their rational values, via the affine trapezoid lemmas. -/

def xreCaixa : Q := ⟨1, 1000000, by norm_num⟩

def xvaCaixa : Q := ⟨9999999, 1000000, by norm_num⟩

def meiaBocaCaixa : Q := ⟨4, 2, by norm_num⟩

def balizaCaixaAnchors : List (Q × Q) := [((0 : Q), (2 : Q)), ((2 : Q), (2 : Q))]

def wlCaixaAnchors : List (Q × Q) := [(xreCaixa, meiaBocaCaixa), (xvaCaixa, meiaBocaCaixa)]

def areasCaixaAnchors : List (Q × Q) :=
  [(xreCaixa, areaSecao cascoCaixa 1 0), (xvaCaixa, areaSecao cascoCaixa 1 10)]

def momsCaixaAnchors : List (Q × Q) :=
  [((0 : Q), momentoVerticalSecao cascoCaixa 1 0),
   ((10 : Q), momentoVerticalSecao cascoCaixa 1 10)]

def integralWlCaixa : Q :=
  integrar (fun x => some (interpLin wlCaixaAnchors x)) xreCaixa xvaCaixa

def volCaixa : Q :=
  integrar (fun x => some (interpLin areasCaixaAnchors x)) xreCaixa xvaCaixa

def integralMomsCaixa : Q :=
  integrar (fun x => some (interpLin momsCaixaAnchors x)) xreCaixa xvaCaixa

def integralLcfCaixa : Q :=
  integrar (fun x => some (x * (2 * interpLin wlCaixaAnchors x))) xreCaixa xvaCaixa

def integralLcbCaixa : Q :=
  integrar (fun x => some (x * interpLin areasCaixaAnchors x)) xreCaixa xvaCaixa

theorem caixa_dim : calcularDimensoesLinhaDagua fsRetornaX0 cascoCaixa 1
    = (xreCaixa, xvaCaixa) := by decide

theorem caixa_find0 : cascoCaixa.funcoes.find? (fun p => Q.beq p.1 0)
    = some ((0 : Q), balizaCaixaAnchors) := by decide

theorem caixa_find10 : cascoCaixa.funcoes.find? (fun p => Q.beq p.1 10)
    = some ((10 : Q), balizaCaixaAnchors) := by decide

theorem obterMeiaBoca_caixa0 (z : Q) :
    obterMeiaBoca cascoCaixa 0 z = interpLin balizaCaixaAnchors z := by
  unfold obterMeiaBoca
  rw [caixa_find0]

theorem obterMeiaBoca_caixa10 (z : Q) :
    obterMeiaBoca cascoCaixa 10 z = interpLin balizaCaixaAnchors z := by
  unfold obterMeiaBoca
  rw [caixa_find10]

theorem balizaCaixa_val (z : Q) (h1 : 0 ≤ z.val) (h2 : z.val ≤ 2) :
    (interpLin balizaCaixaAnchors z).val = 2 := by
  have h2Q : (2 : Q).val = 2 := by
    have := Q.val_ofNat 2; simpa using this
  rw [show balizaCaixaAnchors
    = [((0 : Q), (2 : Q)), ((2 : Q), (2 : Q))] from rfl]
  rw [interpLin_val_two ((0 : Q), (2 : Q)) ((2 : Q), (2 : Q)) z
    (by dsimp only; rw [Q.val_zero]; exact h1)
    (by dsimp only; rw [h2Q]; exact h2)]
  dsimp only
  rw [Q.val_zero, h2Q]
  ring

/-- Value of the half-breadth integral for either box station: the
1001-point grid on `[0, 1]` stays inside the anchor span, the integrand
is constantly `2`. -/
theorem integrar_baliza_caixa :
    (integrar (fun z => some (interpLin balizaCaixaAnchors z)) 0 1).val = 2 := by
  have hall : ∀ y ∈ arangeQ 0 milesimo (999 + 2),
      (nanToNum (fun z => some (interpLin balizaCaixaAnchors z)) y).val
        = 0 * y.val + 2 := by
    intro y hy
    rcases arangeQ_mem_val hy with ⟨k, hk, hyv⟩
    rw [Q.val_zero, milesimo_val] at hyv
    have hk2 : (k : ℚ) ≤ 1000 := by exact_mod_cast Nat.lt_succ_iff.mp hk
    have hknn : (0 : ℚ) ≤ (k : ℚ) := Nat.cast_nonneg k
    show (interpLin balizaCaixaAnchors y).val = 0 * y.val + 2
    rw [balizaCaixa_val y (by rw [hyv]; linarith) (by rw [hyv]; linarith)]
    ring
  have hba : ¬ (1 : Q) ≤ 0 := by decide
  have hcount : arangeCount 0 ((1 : Q) + milesimo / 2) milesimo = 999 + 2 := by decide
  rw [integrar_val_affine _ 0 2 0 1 999 hba hcount hall, Q.val_zero]
  norm_num

/-- Value of the vertical-moment integrand integral `∫ z * 2y(z) dz` on
`[0, 1]`: affine with slope 4. -/
theorem integrar_momvert_caixa :
    (integrar (fun z => some (z * (2 * interpLin balizaCaixaAnchors z))) 0 1).val
      = 2 := by
  have h2Q : (2 : Q).val = 2 := by
    have := Q.val_ofNat 2; simpa using this
  have hall : ∀ y ∈ arangeQ 0 milesimo (999 + 2),
      (nanToNum (fun z => some (z * (2 * interpLin balizaCaixaAnchors z))) y).val
        = 4 * y.val + 0 := by
    intro y hy
    rcases arangeQ_mem_val hy with ⟨k, hk, hyv⟩
    rw [Q.val_zero, milesimo_val] at hyv
    have hk2 : (k : ℚ) ≤ 1000 := by exact_mod_cast Nat.lt_succ_iff.mp hk
    have hknn : (0 : ℚ) ≤ (k : ℚ) := Nat.cast_nonneg k
    show (y * (2 * interpLin balizaCaixaAnchors y)).val = 4 * y.val + 0
    rw [Q.val_mul, Q.val_mul, h2Q,
      balizaCaixa_val y (by rw [hyv]; linarith) (by rw [hyv]; linarith)]
    ring
  have hba : ¬ (1 : Q) ≤ 0 := by decide
  have hcount : arangeCount 0 ((1 : Q) + milesimo / 2) milesimo = 999 + 2 := by decide
  rw [integrar_val_affine _ 4 0 0 1 999 hba hcount hall, Q.val_zero]
  norm_num

theorem areaSecao0_val : (areaSecao cascoCaixa 1 0).val = 4 := by
  have h2Q : (2 : Q).val = 2 := by
    have := Q.val_ofNat 2; simpa using this
  unfold areaSecao
  rw [Q.val_mul]
  have hfun : (fun z => some (obterMeiaBoca cascoCaixa 0 z))
      = fun z => some (interpLin balizaCaixaAnchors z) :=
    funext fun z => by rw [obterMeiaBoca_caixa0]
  rw [hfun, integrar_baliza_caixa, h2Q]
  norm_num

theorem areaSecao10_val : (areaSecao cascoCaixa 1 10).val = 4 := by
  have h2Q : (2 : Q).val = 2 := by
    have := Q.val_ofNat 2; simpa using this
  unfold areaSecao
  rw [Q.val_mul]
  have hfun : (fun z => some (obterMeiaBoca cascoCaixa 10 z))
      = fun z => some (interpLin balizaCaixaAnchors z) :=
    funext fun z => by rw [obterMeiaBoca_caixa10]
  rw [hfun, integrar_baliza_caixa, h2Q]
  norm_num

theorem momVert0_val : (momentoVerticalSecao cascoCaixa 1 0).val = 2 := by
  unfold momentoVerticalSecao
  have hfun : (fun z => some (z * (2 * obterMeiaBoca cascoCaixa 0 z)))
      = fun z => some (z * (2 * interpLin balizaCaixaAnchors z)) :=
    funext fun z => by rw [obterMeiaBoca_caixa0]
  rw [hfun, integrar_momvert_caixa]

theorem momVert10_val : (momentoVerticalSecao cascoCaixa 1 10).val = 2 := by
  unfold momentoVerticalSecao
  have hfun : (fun z => some (z * (2 * obterMeiaBoca cascoCaixa 10 z)))
      = fun z => some (z * (2 * interpLin balizaCaixaAnchors z)) :=
    funext fun z => by rw [obterMeiaBoca_caixa10]
  rw [hfun, integrar_momvert_caixa]

/-- `sorted(list(set(...)))` of a two-point list with distinct, ordered
abscissae is the list itself (without forcing the ordinate values). -/
theorem pontosUnicos_pair (p1 p2 : Q × Q) (hx : Q.beq p1.1 p2.1 = false)
    (hlt : p1.1 < p2.1) :
    pontosUnicos [p1, p2] = [p1, p2] := by
  have hd : dedupPairsAux [] [p1, p2] = [p1, p2] := by
    simp [dedupPairsAux, pairBeq, hx]
  unfold pontosUnicos
  rw [hd]
  show insertPairLex p1 [p2] = [p1, p2]
  unfold insertPairLex
  rw [if_pos (Or.inl hlt)]

/-- The AWP/volume point list for the box hull: no interior station lies
strictly inside the clipped waterline span, and both ends are within the
`1e-3` station tolerance, so the list is the two end ordinates. -/
theorem pontos_ld_caixa (f : Q → Q) :
    pontosLinhaDagua cascoCaixa xreCaixa xvaCaixa f
      = [(xreCaixa, f 0), (xvaCaixa, f 10)] := by
  have hint : cascoCaixa.posicoes.filter
      (fun x => decide (xreCaixa < x) && decide (x < xvaCaixa)) = [] := by decide
  have hpopa : listMin cascoCaixa.posicoes = (0 : Q) := by decide
  have hproa : listMax cascoCaixa.posicoes = (10 : Q) := by decide
  simp only [pontosLinhaDagua]
  rw [hint, hpopa, hproa, if_pos (by decide), if_pos (by decide)]
  rfl

theorem caixa_aw_eq : areaPlanoFlutuacao cascoCaixa 1 xreCaixa xvaCaixa
    = (integralWlCaixa * 2, some wlCaixaAnchors) := by
  have hmb0 : obterMeiaBoca cascoCaixa 0 1 = meiaBocaCaixa := by decide
  have hmb10 : obterMeiaBoca cascoCaixa 10 1 = meiaBocaCaixa := by decide
  have hp : pontosLinhaDagua cascoCaixa xreCaixa xvaCaixa
      (fun x => obterMeiaBoca cascoCaixa x 1) = wlCaixaAnchors := by
    rw [pontos_ld_caixa (fun x => obterMeiaBoca cascoCaixa x 1)]
    show [(xreCaixa, obterMeiaBoca cascoCaixa 0 1),
          (xvaCaixa, obterMeiaBoca cascoCaixa 10 1)] = _
    rw [hmb0, hmb10]
    rfl
  have hu : pontosUnicos wlCaixaAnchors = wlCaixaAnchors :=
    pontosUnicos_pair (xreCaixa, meiaBocaCaixa) (xvaCaixa, meiaBocaCaixa)
      (by decide) (by decide)
  simp only [areaPlanoFlutuacao]
  rw [hp, hu, if_neg (by decide : ¬ (wlCaixaAnchors.length < 2))]
  rfl

theorem caixa_vd_eq : volumeDeslocamento cascoCaixa 1 xreCaixa xvaCaixa densidadeAgua
    = (volCaixa, volCaixa * densidadeAgua, some areasCaixaAnchors) := by
  have hp : pontosLinhaDagua cascoCaixa xreCaixa xvaCaixa
      (fun x => areaSecao cascoCaixa 1 x) = areasCaixaAnchors :=
    pontos_ld_caixa (fun x => areaSecao cascoCaixa 1 x)
  have hu : pontosUnicos areasCaixaAnchors = areasCaixaAnchors :=
    pontosUnicos_pair (xreCaixa, areaSecao cascoCaixa 1 0)
      (xvaCaixa, areaSecao cascoCaixa 1 10) (by decide) (by decide)
  simp only [volumeDeslocamento]
  rw [hp, hu, if_neg (by decide : ¬ (areasCaixaAnchors.length < 2))]
  rfl

theorem caixa_moms_eq : (cascoCaixa.posicoes.map
      (fun x => (x, momentoVerticalSecao cascoCaixa 1 x))).foldr insertPairLex []
    = momsCaixaAnchors := by
  have hpos : cascoCaixa.posicoes = [(0 : Q), (10 : Q)] := by decide
  rw [hpos]
  show insertPairLex ((0 : Q), momentoVerticalSecao cascoCaixa 1 0)
      [((10 : Q), momentoVerticalSecao cascoCaixa 1 10)] = momsCaixaAnchors
  unfold insertPairLex
  rw [if_pos (Or.inl (by decide : (0 : Q) < 10))]
  rfl

/-- The 10001-point `integrar` grid over `[x_re, x_vante]` of a two-anchor
interpolant with equal ordinate values `w`: every sample except the final
overshoot (at `10.000001`, outside the anchor span) evaluates to `w`. -/
theorem integrar_interp_const_caixa (x1 x2 c1 c2 : Q) (w : ℚ)
    (hc1 : c1.val = w) (hc2 : c2.val = w)
    (h1 : x1.val ≤ 1/1000000) (h2 : 9999001/1000000 ≤ x2.val)
    (h3 : x2.val < 10000001/1000000) :
    (integrar (fun x => some (interpLin [(x1, c1), (x2, c2)] x)) xreCaixa xvaCaixa).val
      = w * (19999/2000) := by
  have hxre : xreCaixa.val = 1/1000000 := by norm_num [xreCaixa, Q.val]
  have hx12 : x1.val ≤ x2.val := by
    have : (1 : ℚ)/1000000 ≤ 9999001/1000000 := by norm_num
    linarith
  have hall : ∀ y ∈ arangeQ xreCaixa milesimo (9999 + 1),
      (nanToNum (fun x => some (interpLin [(x1, c1), (x2, c2)] x)) y).val
        = 0 * y.val + w := by
    intro y hy
    rcases arangeQ_mem_val hy with ⟨k, hk, hyv⟩
    rw [hxre, milesimo_val] at hyv
    have hk2 : (k : ℚ) ≤ 9999 := by exact_mod_cast Nat.lt_succ_iff.mp hk
    have hknn : (0 : ℚ) ≤ (k : ℚ) := Nat.cast_nonneg k
    show (interpLin [(x1, c1), (x2, c2)] y).val = 0 * y.val + w
    rw [interpLin_val_two (x1, c1) (x2, c2) y
      (by dsimp only; rw [hyv]; linarith)
      (by dsimp only; rw [hyv]; linarith)]
    dsimp only
    rw [hc1, hc2]
    ring
  have hlast : (nanToNum (fun x => some (interpLin [(x1, c1), (x2, c2)] x))
      (xreCaixa + Q.ofInt ((9999 + 1 : ℕ) : ℤ) * milesimo)).val = 0 := by
    have hz : (xreCaixa + Q.ofInt ((9999 + 1 : ℕ) : ℤ) * milesimo).val
        = 10000001/1000000 := by
      rw [Q.val_add, Q.val_mul, Q.val_ofInt, milesimo_val, hxre]
      norm_num
    show (interpLin [(x1, c1), (x2, c2)]
      (xreCaixa + Q.ofInt ((9999 + 1 : ℕ) : ℤ) * milesimo)).val = 0
    exact interpLin_val_above (x1, c1) (x2, c2) _ hx12 (by rw [hz]; exact h3)
  have hba : ¬ xvaCaixa ≤ xreCaixa := by decide
  have hcount : arangeCount xreCaixa (xvaCaixa + milesimo / 2) milesimo = 9999 + 2 := by
    decide
  rw [integrar_val_affine_castoff _ 0 w 0 xreCaixa xvaCaixa 9999 hba hcount hall hlast]
  rw [hxre]
  push_cast
  ring

/-- The LCF moment integrand `x * 2y(x)` over the same grid, with equal
waterline half-breadths `2`: affine slope `4` inside the span, `0` at the
overshoot. -/
theorem integrar_momento_dobro_caixa (x1 x2 c1 c2 : Q)
    (hc1 : c1.val = 2) (hc2 : c2.val = 2)
    (h1 : x1.val ≤ 1/1000000) (h2 : 9999001/1000000 ≤ x2.val)
    (h3 : x2.val < 10000001/1000000) :
    (integrar (fun x => some (x * (2 * interpLin [(x1, c1), (x2, c2)] x)))
        xreCaixa xvaCaixa).val
      = 199980039998/1000000000 := by
  have hxre : xreCaixa.val = 1/1000000 := by norm_num [xreCaixa, Q.val]
  have hx12 : x1.val ≤ x2.val := by
    have : (1 : ℚ)/1000000 ≤ 9999001/1000000 := by norm_num
    linarith
  have h2Q : (2 : Q).val = 2 := by
    have := Q.val_ofNat 2; simpa using this
  have hall : ∀ y ∈ arangeQ xreCaixa milesimo (9999 + 1),
      (nanToNum (fun x => some (x * (2 * interpLin [(x1, c1), (x2, c2)] x))) y).val
        = 4 * y.val + 0 := by
    intro y hy
    rcases arangeQ_mem_val hy with ⟨k, hk, hyv⟩
    rw [hxre, milesimo_val] at hyv
    have hk2 : (k : ℚ) ≤ 9999 := by exact_mod_cast Nat.lt_succ_iff.mp hk
    have hknn : (0 : ℚ) ≤ (k : ℚ) := Nat.cast_nonneg k
    show (y * (2 * interpLin [(x1, c1), (x2, c2)] y)).val = 4 * y.val + 0
    rw [Q.val_mul, Q.val_mul, h2Q]
    rw [interpLin_val_two (x1, c1) (x2, c2) y
      (by dsimp only; rw [hyv]; linarith)
      (by dsimp only; rw [hyv]; linarith)]
    dsimp only
    rw [hc1, hc2]
    ring
  have hlast : (nanToNum (fun x => some (x * (2 * interpLin [(x1, c1), (x2, c2)] x)))
      (xreCaixa + Q.ofInt ((9999 + 1 : ℕ) : ℤ) * milesimo)).val = 0 := by
    have hz : (xreCaixa + Q.ofInt ((9999 + 1 : ℕ) : ℤ) * milesimo).val
        = 10000001/1000000 := by
      rw [Q.val_add, Q.val_mul, Q.val_ofInt, milesimo_val, hxre]
      norm_num
    show ((xreCaixa + Q.ofInt ((9999 + 1 : ℕ) : ℤ) * milesimo)
        * (2 * interpLin [(x1, c1), (x2, c2)]
            (xreCaixa + Q.ofInt ((9999 + 1 : ℕ) : ℤ) * milesimo))).val = 0
    rw [Q.val_mul, Q.val_mul, h2Q,
      interpLin_val_above (x1, c1) (x2, c2) _ hx12 (by rw [hz]; exact h3)]
    ring
  have hba : ¬ xvaCaixa ≤ xreCaixa := by decide
  have hcount : arangeCount xreCaixa (xvaCaixa + milesimo / 2) milesimo = 9999 + 2 := by
    decide
  rw [integrar_val_affine_castoff _ 4 0 0 xreCaixa xvaCaixa 9999 hba hcount hall hlast]
  rw [hxre]
  norm_num

/-- The LCB moment integrand `x * A(x)` with equal section areas `4`. -/
theorem integrar_momento_area_caixa (x1 x2 c1 c2 : Q)
    (hc1 : c1.val = 4) (hc2 : c2.val = 4)
    (h1 : x1.val ≤ 1/1000000) (h2 : 9999001/1000000 ≤ x2.val)
    (h3 : x2.val < 10000001/1000000) :
    (integrar (fun x => some (x * interpLin [(x1, c1), (x2, c2)] x))
        xreCaixa xvaCaixa).val
      = 199980039998/1000000000 := by
  have hxre : xreCaixa.val = 1/1000000 := by norm_num [xreCaixa, Q.val]
  have hx12 : x1.val ≤ x2.val := by
    have : (1 : ℚ)/1000000 ≤ 9999001/1000000 := by norm_num
    linarith
  have hall : ∀ y ∈ arangeQ xreCaixa milesimo (9999 + 1),
      (nanToNum (fun x => some (x * interpLin [(x1, c1), (x2, c2)] x)) y).val
        = 4 * y.val + 0 := by
    intro y hy
    rcases arangeQ_mem_val hy with ⟨k, hk, hyv⟩
    rw [hxre, milesimo_val] at hyv
    have hk2 : (k : ℚ) ≤ 9999 := by exact_mod_cast Nat.lt_succ_iff.mp hk
    have hknn : (0 : ℚ) ≤ (k : ℚ) := Nat.cast_nonneg k
    show (y * interpLin [(x1, c1), (x2, c2)] y).val = 4 * y.val + 0
    rw [Q.val_mul]
    rw [interpLin_val_two (x1, c1) (x2, c2) y
      (by dsimp only; rw [hyv]; linarith)
      (by dsimp only; rw [hyv]; linarith)]
    dsimp only
    rw [hc1, hc2]
    ring
  have hlast : (nanToNum (fun x => some (x * interpLin [(x1, c1), (x2, c2)] x))
      (xreCaixa + Q.ofInt ((9999 + 1 : ℕ) : ℤ) * milesimo)).val = 0 := by
    have hz : (xreCaixa + Q.ofInt ((9999 + 1 : ℕ) : ℤ) * milesimo).val
        = 10000001/1000000 := by
      rw [Q.val_add, Q.val_mul, Q.val_ofInt, milesimo_val, hxre]
      norm_num
    show ((xreCaixa + Q.ofInt ((9999 + 1 : ℕ) : ℤ) * milesimo)
        * interpLin [(x1, c1), (x2, c2)]
            (xreCaixa + Q.ofInt ((9999 + 1 : ℕ) : ℤ) * milesimo)).val = 0
    rw [Q.val_mul,
      interpLin_val_above (x1, c1) (x2, c2) _ hx12 (by rw [hz]; exact h3)]
    ring
  have hba : ¬ xvaCaixa ≤ xreCaixa := by decide
  have hcount : arangeCount xreCaixa (xvaCaixa + milesimo / 2) milesimo = 9999 + 2 := by
    decide
  rw [integrar_val_affine_castoff _ 4 0 0 xreCaixa xvaCaixa 9999 hba hcount hall hlast]
  rw [hxre]
  norm_num

theorem integralWlCaixa_val : integralWlCaixa.val = 19999/1000 := by
  have h := integrar_interp_const_caixa xreCaixa xvaCaixa meiaBocaCaixa meiaBocaCaixa 2
    (by norm_num [meiaBocaCaixa, Q.val]) (by norm_num [meiaBocaCaixa, Q.val])
    (by norm_num [xreCaixa, Q.val]) (by norm_num [xvaCaixa, Q.val])
    (by norm_num [xvaCaixa, Q.val])
  rw [show integralWlCaixa
      = integrar (fun x => some (interpLin [(xreCaixa, meiaBocaCaixa),
          (xvaCaixa, meiaBocaCaixa)] x)) xreCaixa xvaCaixa from rfl, h]
  norm_num

theorem volCaixa_val : volCaixa.val = 19999/500 := by
  have h := integrar_interp_const_caixa xreCaixa xvaCaixa
    (areaSecao cascoCaixa 1 0) (areaSecao cascoCaixa 1 10) 4
    areaSecao0_val areaSecao10_val
    (by norm_num [xreCaixa, Q.val]) (by norm_num [xvaCaixa, Q.val])
    (by norm_num [xvaCaixa, Q.val])
  rw [show volCaixa
      = integrar (fun x => some (interpLin [(xreCaixa, areaSecao cascoCaixa 1 0),
          (xvaCaixa, areaSecao cascoCaixa 1 10)] x)) xreCaixa xvaCaixa from rfl, h]
  norm_num

theorem integralMomsCaixa_val : integralMomsCaixa.val = 19999/1000 := by
  have h := integrar_interp_const_caixa (0 : Q) (10 : Q)
    (momentoVerticalSecao cascoCaixa 1 0) (momentoVerticalSecao cascoCaixa 1 10) 2
    momVert0_val momVert10_val
    (by rw [Q.val_zero]; norm_num)
    (by rw [Q.val_ofNat]; norm_num) (by rw [Q.val_ofNat]; norm_num)
  rw [show integralMomsCaixa
      = integrar (fun x => some (interpLin
          [((0 : Q), momentoVerticalSecao cascoCaixa 1 0),
           ((10 : Q), momentoVerticalSecao cascoCaixa 1 10)] x))
          xreCaixa xvaCaixa from rfl, h]
  norm_num

theorem integralLcfCaixa_val : integralLcfCaixa.val = 199980039998/1000000000 := by
  have h := integrar_momento_dobro_caixa xreCaixa xvaCaixa meiaBocaCaixa meiaBocaCaixa
    (by norm_num [meiaBocaCaixa, Q.val]) (by norm_num [meiaBocaCaixa, Q.val])
    (by norm_num [xreCaixa, Q.val]) (by norm_num [xvaCaixa, Q.val])
    (by norm_num [xvaCaixa, Q.val])
  rw [show integralLcfCaixa
      = integrar (fun x => some (x * (2 * interpLin [(xreCaixa, meiaBocaCaixa),
          (xvaCaixa, meiaBocaCaixa)] x))) xreCaixa xvaCaixa from rfl, h]

theorem integralLcbCaixa_val : integralLcbCaixa.val = 199980039998/1000000000 := by
  have h := integrar_momento_area_caixa xreCaixa xvaCaixa
    (areaSecao cascoCaixa 1 0) (areaSecao cascoCaixa 1 10)
    areaSecao0_val areaSecao10_val
    (by norm_num [xreCaixa, Q.val]) (by norm_num [xvaCaixa, Q.val])
    (by norm_num [xvaCaixa, Q.val])
  rw [show integralLcbCaixa
      = integrar (fun x => some (x * interpLin [(xreCaixa, areaSecao cascoCaixa 1 0),
          (xvaCaixa, areaSecao cascoCaixa 1 10)] x)) xreCaixa xvaCaixa from rfl, h]

theorem caixa_props_eq : propriedadesHidrostaticas fsRetornaX0 cascoCaixa 1 densidadeAgua
    = { xre := xreCaixa, xva := xvaCaixa, lwl := xvaCaixa - xreCaixa,
        awp := integralWlCaixa * 2, volume := volCaixa,
        deslocamento := volCaixa * densidadeAgua,
        lcf := integralLcfCaixa / (integralWlCaixa * 2),
        lcb := integralLcbCaixa / volCaixa,
        vcb := integralMomsCaixa / volCaixa } := by
  have h2Q : (2 : Q).val = 2 := by
    have := Q.val_ofNat 2; simpa using this
  have hg_aw : ¬ (integralWlCaixa * 2 < (⟨1, 1000000, by norm_num⟩ : Q)) := by
    intro hc
    have hv := (Q.lt_iff_val _ _).mp hc
    rw [Q.val_mul, integralWlCaixa_val, h2Q] at hv
    have h3 : ((⟨1, 1000000, by norm_num⟩ : Q)).val = 1/1000000 := by
      norm_num [Q.val]
    rw [h3] at hv
    norm_num at hv
  have hg_vol : ¬ (volCaixa < (⟨1, 1000000, by norm_num⟩ : Q)) := by
    intro hc
    have hv := (Q.lt_iff_val _ _).mp hc
    rw [volCaixa_val] at hv
    have h3 : ((⟨1, 1000000, by norm_num⟩ : Q)).val = 1/1000000 := by
      norm_num [Q.val]
    rw [h3] at hv
    norm_num at hv
  simp only [propriedadesHidrostaticas]
  rw [caixa_dim]
  dsimp only
  rw [caixa_aw_eq, caixa_vd_eq]
  dsimp only
  unfold calcularLCF calcularLCB calcularVCB
  dsimp only
  rw [if_neg hg_aw, if_neg hg_vol, if_neg hg_vol, caixa_moms_eq]
  rfl

theorem caixa_volume_eq :
    (propriedadesHidrostaticas fsRetornaX0 cascoCaixa 1 densidadeAgua).volume
      = volCaixa := by
  rw [caixa_props_eq]

theorem caixa_awp_eq :
    (propriedadesHidrostaticas fsRetornaX0 cascoCaixa 1 densidadeAgua).awp
      = integralWlCaixa * 2 := by
  rw [caixa_props_eq]

theorem caixa_desloc_eq :
    (propriedadesHidrostaticas fsRetornaX0 cascoCaixa 1 densidadeAgua).deslocamento
      = volCaixa * densidadeAgua := by
  rw [caixa_props_eq]

theorem caixa_lcb_eq :
    (propriedadesHidrostaticas fsRetornaX0 cascoCaixa 1 densidadeAgua).lcb
      = integralLcbCaixa / volCaixa := by
  rw [caixa_props_eq]

theorem caixa_lcf_eq :
    (propriedadesHidrostaticas fsRetornaX0 cascoCaixa 1 densidadeAgua).lcf
      = integralLcfCaixa / (integralWlCaixa * 2) := by
  rw [caixa_props_eq]

theorem caixa_vcb_eq :
    (propriedadesHidrostaticas fsRetornaX0 cascoCaixa 1 densidadeAgua).vcb
      = integralMomsCaixa / volCaixa := by
  rw [caixa_props_eq]

/-- C9 counterexample: for the box hull (L=10, half-breadth 2, depth 2)
at draft 1 with density 1.025, the computation does NOT return
volume 40, AWP 40, displacement 41.0, LCB 5.0 or LCF 5.0. The fsolve
seeds `x_lim ± 1e-6` are returned unchanged on the gradient-free flat
profile, clipping the waterline to `[1e-6, 10 - 1e-6]`, and the final
`arange` sample overshoots the waterline span, so the curve integrals
lose the end trapezoids: volume and AWP come out `39.998`, displacement
`40.99795`, LCB and LCF `4.99975...`. -/
theorem c9_caixa_divergencias :
    (propriedadesHidrostaticas fsRetornaX0 cascoCaixa 1 densidadeAgua).volume.val ≠ 40
      ∧ (propriedadesHidrostaticas fsRetornaX0 cascoCaixa 1 densidadeAgua).awp.val ≠ 40
      ∧ (propriedadesHidrostaticas fsRetornaX0 cascoCaixa 1 densidadeAgua).deslocamento.val ≠ 41
      ∧ (propriedadesHidrostaticas fsRetornaX0 cascoCaixa 1 densidadeAgua).lcb.val ≠ 5
      ∧ (propriedadesHidrostaticas fsRetornaX0 cascoCaixa 1 densidadeAgua).lcf.val ≠ 5 := by
  have h2Q : (2 : Q).val = 2 := by
    have := Q.val_ofNat 2; simpa using this
  have hdens : densidadeAgua.val = 1025/1000 := by norm_num [densidadeAgua, Q.val]
  refine ⟨?_, ?_, ?_, ?_, ?_⟩
  · rw [caixa_volume_eq, volCaixa_val]; norm_num
  · rw [caixa_awp_eq, Q.val_mul, integralWlCaixa_val, h2Q]; norm_num
  · rw [caixa_desloc_eq, Q.val_mul, volCaixa_val, hdens]; norm_num
  · rw [caixa_lcb_eq, Q.val_div, integralLcbCaixa_val, volCaixa_val]; norm_num
  · rw [caixa_lcf_eq, Q.val_div, integralLcfCaixa_val, Q.val_mul,
      integralWlCaixa_val, h2Q]
    norm_num

/-- C9 amended: exact values returned for the box hull at draft 1. The
claims that hold exactly are section area `B*T = 4` (the `z`-grid lands
on the draft exactly) and `VCB = T/2 = 1/2` (the identical grid clipping
cancels between the moment and volume integrals). Volume and AWP are
`39.998` instead of `L*B*T = 40` and `L*B = 40`, displacement `40.99795`
instead of `41.0`, and LCB = LCF = `99990019999/19999000000 ≈ 4.99975`
instead of `5.0`, because the `fsolve` seeds clip the waterline span to
`[1e-6, 10 - 1e-6]` and the final `arange` sample falls outside it. -/
theorem c9_caixa_valores_reais :
    construirCasco tabelaCaixa = Except.ok cascoCaixa
      ∧ (areaSecao cascoCaixa 1 0).val = 4
      ∧ (areaSecao cascoCaixa 1 10).val = 4
      ∧ (propriedadesHidrostaticas fsRetornaX0 cascoCaixa 1 densidadeAgua).vcb.val = 1/2
      ∧ (propriedadesHidrostaticas fsRetornaX0 cascoCaixa 1 densidadeAgua).volume.val
          = 19999/500
      ∧ (propriedadesHidrostaticas fsRetornaX0 cascoCaixa 1 densidadeAgua).awp.val
          = 19999/500
      ∧ (propriedadesHidrostaticas fsRetornaX0 cascoCaixa 1 densidadeAgua).deslocamento.val
          = 819959/20000
      ∧ (propriedadesHidrostaticas fsRetornaX0 cascoCaixa 1 densidadeAgua).lcb.val
          = 99990019999/19999000000
      ∧ (propriedadesHidrostaticas fsRetornaX0 cascoCaixa 1 densidadeAgua).lcf.val
          = 99990019999/19999000000 := by
  have h2Q : (2 : Q).val = 2 := by
    have := Q.val_ofNat 2; simpa using this
  have hdens : densidadeAgua.val = 1025/1000 := by norm_num [densidadeAgua, Q.val]
  refine ⟨rfl, areaSecao0_val, areaSecao10_val, ?_, ?_, ?_, ?_, ?_, ?_⟩
  · rw [caixa_vcb_eq, Q.val_div, integralMomsCaixa_val, volCaixa_val]; norm_num
  · rw [caixa_volume_eq]; exact volCaixa_val
  · rw [caixa_awp_eq, Q.val_mul, integralWlCaixa_val, h2Q]; norm_num
  · rw [caixa_desloc_eq, Q.val_mul, volCaixa_val, hdens]; norm_num
  · rw [caixa_lcb_eq, Q.val_div, integralLcbCaixa_val, volCaixa_val]; norm_num
  · rw [caixa_lcf_eq, Q.val_div, integralLcfCaixa_val, Q.val_mul,
      integralWlCaixa_val, h2Q]
    norm_num
